import Mathlib

/-
Verification of the rdf-rs crate (reader / graph / writer / SPARQL pipeline).

The Rust sources are embedded shallowly:
* Unicode scalar values (`char`) are `Nat`; Rust `String` payloads are `List Nat`
  of scalar values; the underlying byte stream is a `List Nat` of bytes.
* Stateful readers/lexers/parsers become explicit state passing: a call that in
  Rust mutates `&mut self` and returns `Result<T>` becomes a function returning
  `Except Error T × State`, so that state changes made before an error are kept,
  exactly as Rust keeps mutations made before an `Err` return.
* Loops whose termination depends on input consumption take an explicit fuel
  argument; wrappers pick a fuel that is large enough for the whole input, and
  fuel exhaustion is reported with a dedicated `EmbeddingFuel` error kind that
  does not occur in the source (it is unreachable for the wrappers' fuel).
-/

set_option maxHeartbeats 4000000

namespace RdfRs

/-- Rust `String` payloads, modelled as lists of Unicode scalar values. -/
abbrev RStr := List Nat

/-- The `InputChars` type of `input_reader.rs`: a sequence of `Option<char>`. -/
abbrev InputChars := List (Option Nat)

/-- `InputChars::to_string`: concatenate the present characters, dropping `None`s. -/
def InputChars.toStr (cs : InputChars) : RStr := cs.filterMap id

/-- The `ErrorType` enumeration of `error.rs`.  `EmbeddingFuel` is an artifact of
the shallow embedding (fuel exhaustion), unreachable for the fuel the wrappers
supply; it has no counterpart in the source. -/
inductive ErrorType where
  | InvalidWriterOutput
  | InvalidReaderInput
  | InvalidToken
  | EndOfInput (chars : InputChars)
  | InvalidByteEncoding
  | InvalidNamespace
  | InvalidSparqlInput
  | EmbeddingFuel
deriving DecidableEq, Repr

/-- The `Error` struct of `error.rs` (error type plus message). -/
structure Error where
  etype : ErrorType
  msg : String
deriving DecidableEq, Repr

/-- Decimal rendering of a `u64` (Rust `to_string`), with fuel. -/
def natDecAux : Nat → Nat → RStr
  | 0, _ => []
  | fuel+1, n => if n < 10 then [48 + n] else natDecAux fuel (n / 10) ++ [48 + n % 10]

/-- Decimal rendering of a `u64` counter value, e.g. `7 ↦ "7"`. -/
def natDec (n : Nat) : RStr := natDecAux (n + 1) n

/-- Rust `str::replace` on scalar lists, with fuel for the nonempty-pattern scan. -/
def replaceAllAux (pat rep : RStr) : Nat → RStr → RStr
  | 0, s => s
  | fuel+1, s =>
    match s with
    | [] => []
    | c :: rest =>
      if pat.isPrefixOf s then rep ++ replaceAllAux pat rep fuel (s.drop pat.length)
      else c :: replaceAllAux pat rep fuel rest

/-- Rust `str::replace`: replace every occurrence of `pat` by `rep`.  An empty
pattern matches at every character boundary, as in Rust. -/
def replaceAll (pat rep s : RStr) : RStr :=
  if pat = [] then rep ++ s.flatMap (fun c => c :: rep)
  else replaceAllAux pat rep s.length s

-- The `InputReaderHelper` predicates of `input_reader.rs`.
namespace InputReaderHelper

/-- `'\n' | '\r' | ' '`. -/
def whitespace (c : Nat) : Bool := c = 10 || c = 13 || c = 32

/-- `'\n' | '\r'`. -/
def line_break (c : Nat) : Bool := c = 10 || c = 13

/-- `'\n' | '\r' | ' ' | '.'`. -/
def node_delimiter (c : Nat) : Bool := c = 10 || c = 13 || c = 32 || c = 46

/-- `'0'..='9'`. -/
def digit (c : Nat) : Bool := 48 ≤ c && c ≤ 57

end InputReaderHelper

/-- The `InputReader` struct: the not-yet-consumed bytes of the underlying
stream plus the FIFO pushback buffer of already-decoded scalars. -/
structure InputReader where
  input : List Nat
  peeked_chars : InputChars
deriving DecidableEq, Repr

namespace InputReader

/-- Total number of unconsumed items; used to size fuel for loops. -/
def size (r : InputReader) : Nat := r.input.length + r.peeked_chars.length

/-- Exact single-scalar UTF-8 decoding: `some c` iff the byte list is the
complete encoding of the one scalar `c`.  Within the incremental loop of
`get_next_char` this coincides with `str::from_utf8` succeeding on the buffer,
because the loop returns at the first prefix that is valid UTF-8, and the first
valid prefix necessarily encodes exactly one scalar. -/
def utf8Decode1 : List Nat → Option Nat
  | [b] => if b < 128 then some b else none
  | [b0, b1] =>
    if 194 ≤ b0 ∧ b0 ≤ 223 ∧ 128 ≤ b1 ∧ b1 ≤ 191 then
      some ((b0 - 192) * 64 + (b1 - 128))
    else none
  | [b0, b1, b2] =>
    if ((b0 = 224 ∧ 160 ≤ b1 ∧ b1 ≤ 191) ∨
        (225 ≤ b0 ∧ b0 ≤ 236 ∧ 128 ≤ b1 ∧ b1 ≤ 191) ∨
        (b0 = 237 ∧ 128 ≤ b1 ∧ b1 ≤ 159) ∨
        (238 ≤ b0 ∧ b0 ≤ 239 ∧ 128 ≤ b1 ∧ b1 ≤ 191)) ∧
       128 ≤ b2 ∧ b2 ≤ 191 then
      some ((b0 - 224) * 4096 + (b1 - 128) * 64 + (b2 - 128))
    else none
  | [b0, b1, b2, b3] =>
    if ((b0 = 240 ∧ 144 ≤ b1 ∧ b1 ≤ 191) ∨
        (241 ≤ b0 ∧ b0 ≤ 243 ∧ 128 ≤ b1 ∧ b1 ≤ 191) ∨
        (b0 = 244 ∧ 128 ≤ b1 ∧ b1 ≤ 143)) ∧
       128 ≤ b2 ∧ b2 ≤ 191 ∧ 128 ≤ b3 ∧ b3 ≤ 191 then
      some ((b0 - 240) * 262144 + (b1 - 128) * 4096 + (b2 - 128) * 64 + (b3 - 128))
    else none
  | _ => none

/-- The byte loop of `InputReader::get_next_char`: read up to four bytes,
returning the first scalar whose encoding completes; exhausting the stream
mid-buffer yields `Ok(None)` (the partial bytes are dropped); four bytes with
no valid prefix is `InvalidByteEncoding`. -/
def getNextCharLoop : List Nat → List Nat → Nat → Except Error (Option Nat) × List Nat
  | [], _, _ => (.ok none, [])
  | b :: rest, buf, pos =>
    let buf2 := buf ++ [b]
    match utf8Decode1 buf2 with
    | some c => (.ok (some c), rest)
    | none =>
      if pos < 3 then getNextCharLoop rest buf2 (pos + 1)
      else (.error ⟨.InvalidByteEncoding, "Invalid byte encoding of input."⟩, rest)

/-- `InputReader::get_next_char`: drain the pushback buffer first, then decode
one scalar from the byte stream. -/
def get_next_char (r : InputReader) : Except Error (Option Nat) × InputReader :=
  match r.peeked_chars with
  | c :: rest => (.ok c, ⟨r.input, rest⟩)
  | [] =>
    match getNextCharLoop r.input [] 0 with
    | (res, rest) => (res, ⟨rest, []⟩)

/-- `InputReader::get_next_k_chars`: consume the next `k` scalars (padding with
`None` once the stream is exhausted). -/
def get_next_k_chars : Nat → InputReader → Except Error InputChars × InputReader
  | 0, r => (.ok [], r)
  | k+1, r =>
    match get_next_char r with
    | (.ok c, r1) =>
      match get_next_k_chars k r1 with
      | (.ok cs, r2) => (.ok (c :: cs), r2)
      | (.error e, r2) => (.error e, r2)
    | (.error e, r1) => (.error e, r1)

/-- `InputReader::peek_next_k_chars`: serve from the buffer when it is long
enough, otherwise consume `k` scalars and store them as the new buffer. -/
def peek_next_k_chars (r : InputReader) (k : Nat) : Except Error InputChars × InputReader :=
  if k ≤ r.peeked_chars.length then (.ok (r.peeked_chars.take k), r)
  else
    match get_next_k_chars k r with
    | (.ok cs, r1) => (.ok cs, ⟨r1.input, cs⟩)
    | (.error e, r1) => (.error e, r1)

/-- `InputReader::peek_next_char` (`peek_next_k_chars(1)` then index 0). -/
def peek_next_char (r : InputReader) : Except Error (Option Nat) × InputReader :=
  match peek_next_k_chars r 1 with
  | (.ok cs, r1) => (.ok (cs.getD 0 none), r1)
  | (.error e, r1) => (.error e, r1)

/-- Loop of `get_next_char_discard_leading_spaces` (skips `' '`, `'\n'`, `'\t'`,
`'\r'`), with fuel. -/
def get_next_char_dls_aux : Nat → InputReader → Except Error (Option Nat) × InputReader
  | 0, r => (.error ⟨.EmbeddingFuel, "fuel"⟩, r)
  | fuel+1, r =>
    match get_next_char r with
    | (.ok (some c), r1) =>
      if c = 32 ∨ c = 10 ∨ c = 9 ∨ c = 13 then get_next_char_dls_aux fuel r1
      else (.ok (some c), r1)
    | (.ok none, r1) => (.ok none, r1)
    | (.error e, r1) => (.error e, r1)

/-- `InputReader::get_next_char_discard_leading_spaces`. -/
def get_next_char_discard_leading_spaces (r : InputReader) :
    Except Error (Option Nat) × InputReader :=
  get_next_char_dls_aux (size r + 1) r

/-- `InputReader::peek_next_char_discard_leading_spaces`: consume whitespace and
one further scalar, pushing that scalar back only when the buffer is empty
afterwards. -/
def peek_next_char_discard_leading_spaces (r : InputReader) :
    Except Error (Option Nat) × InputReader :=
  match get_next_char_discard_leading_spaces r with
  | (.ok (some c), r1) =>
    if r1.peeked_chars.length = 0 then (.ok (some c), ⟨r1.input, [some c]⟩)
    else (.ok (some c), r1)
  | (.ok none, r1) => (.ok none, r1)
  | (.error e, r1) => (.error e, r1)

/-- Loop of `InputReader::get_until`, with fuel: collect scalars until the
predicate holds, pushing the delimiter back; end of input yields the
recoverable `EndOfInput` error carrying the partial read. -/
def get_until_aux (p : Nat → Bool) : Nat → InputReader → InputChars →
    Except Error InputChars × InputReader
  | 0, r, _ => (.error ⟨.EmbeddingFuel, "fuel"⟩, r)
  | fuel+1, r, buf =>
    match get_next_char r with
    | (.ok (some c), r1) =>
      if p c then (.ok buf, ⟨r1.input, some c :: r1.peeked_chars⟩)
      else get_until_aux p fuel r1 (buf ++ [some c])
    | (.ok none, r1) => (.error ⟨.EndOfInput buf, "End of input."⟩, r1)
    | (.error e, r1) => (.error e, r1)

/-- `InputReader::get_until`. -/
def get_until (p : Nat → Bool) (r : InputReader) : Except Error InputChars × InputReader :=
  get_until_aux p (size r + 1) r []

/-- `InputReader::peek_until`: read as `get_until`, then put everything read
(including the pushed-back delimiter) back in front of the buffer. -/
def peek_until (p : Nat → Bool) (r : InputReader) : Except Error InputChars × InputReader :=
  match get_until p r with
  | (.ok cs, r1) => (.ok cs, ⟨r1.input, cs ++ r1.peeked_chars⟩)
  | (.error e, r1) => (.error e, r1)

/-- Whitespace-consuming loop of `get_until_discard_leading_spaces`, with fuel:
peek one scalar (end of input stands in as `'x'`, as `unwrap_or('x')` does) and
consume it while it is `InputReaderHelper::whitespace`.  The result of the
consuming `get_next_char` is discarded, errors included, as in the source. -/
def get_until_dls_aux (p : Nat → Bool) : Nat → InputReader →
    Except Error InputChars × InputReader
  | 0, r => (.error ⟨.EmbeddingFuel, "fuel"⟩, r)
  | fuel+1, r =>
    match peek_next_char r with
    | (.ok pc, r1) =>
      if InputReaderHelper.whitespace (pc.getD 120) then
        match get_next_char r1 with
        | (_, r2) => get_until_dls_aux p fuel r2
      else get_until p r1
    | (.error e, r1) => (.error e, r1)

/-- `InputReader::get_until_discard_leading_spaces`. -/
def get_until_discard_leading_spaces (p : Nat → Bool) (r : InputReader) :
    Except Error InputChars × InputReader :=
  get_until_dls_aux p (size r + 1) r

/-- `InputReader::peek_until_discard_leading_spaces`. -/
def peek_until_discard_leading_spaces (p : Nat → Bool) (r : InputReader) :
    Except Error InputChars × InputReader :=
  match get_until_discard_leading_spaces p r with
  | (.ok cs, r1) => (.ok cs, ⟨r1.input, cs ++ r1.peeked_chars⟩)
  | (.error e, r1) => (.error e, r1)

end InputReader

/-- ASCII helper: the scalar values of a Lean string literal. -/
def ascii (s : String) : RStr := s.toList.map Char.toNat

/-- The `Token` enumeration of `token.rs` (the source's `Prefix` variant is
`PrefixTok` here). -/
inductive Token where
  | Comment (text : RStr)
  | Literal (lit : RStr)
  | LiteralWithUrlDatatype (lit dt : RStr)
  | LiteralWithQNameDatatype (lit pfx path : RStr)
  | LiteralWithLanguageSpecification (lit lang : RStr)
  | Uri (uri : RStr)
  | BlankNode (id : RStr)
  | TripleDelimiter
  | PrefixDirective (name uri : RStr)
  | BaseDirective (uri : RStr)
  | QName (pfx path : RStr)
  | PrefixTok (name : RStr)
  | KeywordA
  | PredicateListDelimiter
  | ObjectListDelimiter
  | CollectionStart
  | CollectionEnd
  | UnlabeledBlankNodeStart
  | UnlabeledBlankNodeEnd
  | EndOfInput
  | Select
  | Distinct
  | Reduced
  | Construct
  | Describe
  | Ask
  | From
  | Named
  | Order
  | By
  | Asc
  | Desc
  | Offset
  | Optional
  | Filter
  | Graph
  | Union
  | Regex
  | Where
  | GroupStart
  | GroupEnd
  | Asterisk
  | SparqlVariable (name : RStr)
deriving DecidableEq, Repr

/-- ASCII lower-casing of one scalar (for the case-insensitive comparisons the
source performs with `to_lowercase`). -/
def lowerAscii (c : Nat) : Nat := if 65 ≤ c ∧ c ≤ 90 then c + 32 else c

/-- Strip one leading `'+'` or `'-'`. -/
def stripSign : RStr → RStr
  | 43 :: r => r
  | 45 :: r => r
  | s => s

/-- Value of a nonempty all-digit string (`none` otherwise). -/
def digitsValAux : RStr → Nat → Option Nat
  | [], acc => some acc
  | c :: rest, acc =>
    if 48 ≤ c ∧ c ≤ 57 then digitsValAux rest (acc * 10 + (c - 48)) else none

/-- Numeric value of a nonempty digit string, `none` if empty or non-digit. -/
def digitsVal : RStr → Option Nat
  | [] => none
  | s => digitsValAux s 0

/-- One or more ASCII digits (`Count` in the Rust float grammar). -/
def isCount (s : RStr) : Bool := !s.isEmpty && s.all InputReaderHelper.digit

/-- The optional-exponent tail of the Rust `f64` grammar: empty, or
`('e'|'E') Sign? Digit+`. -/
def isExpOrEmpty : RStr → Bool
  | [] => true
  | c :: rest => (c = 101 || c = 69) && isCount (stripSign rest)

/-- The `Number` production of the grammar accepted by Rust's
`f64::from_str`. -/
def isNumberGrammar (s : RStr) : Bool :=
  let d1 := s.takeWhile InputReaderHelper.digit
  let r1 := s.dropWhile InputReaderHelper.digit
  match r1 with
  | 46 :: r2 =>
    let d2 := r2.takeWhile InputReaderHelper.digit
    let r3 := r2.dropWhile InputReaderHelper.digit
    (!d1.isEmpty || !d2.isEmpty) && isExpOrEmpty r3
  | _ => !d1.isEmpty && isExpOrEmpty r1

namespace TurtleSpecs

/-- `TurtleSpecs::is_double_literal`: success of Rust `str::parse::<f64>`, i.e.
membership in the documented `f64::from_str` grammar (`inf`, `infinity`, `nan`
case-insensitively, or a number; parsing never fails on magnitude). -/
def is_double_literal (s : RStr) : Bool :=
  let b := stripSign s
  let lb := b.map lowerAscii
  lb = ascii "inf" || lb = ascii "infinity" || lb = ascii "nan" || isNumberGrammar b

/-- `TurtleSpecs::is_integer_literal`: success of Rust `str::parse::<i64>`
(optional sign, one or more digits, value within the `i64` range). -/
def is_integer_literal (s : RStr) : Bool :=
  match s with
  | 43 :: rest =>
    match digitsVal rest with
    | some v => v ≤ 9223372036854775807
    | none => false
  | 45 :: rest =>
    match digitsVal rest with
    | some v => v ≤ 9223372036854775808
    | none => false
  | _ =>
    match digitsVal s with
    | some v => v ≤ 9223372036854775807
    | none => false

/-- `TurtleSpecs::is_boolean_literal`: exactly `true` or `false`. -/
def is_boolean_literal (s : RStr) : Bool :=
  s = ascii "true" || s = ascii "false"

end TurtleSpecs

/-- The `Uri` value type of `uri.rs`. -/
structure Uri where
  uri : RStr
deriving DecidableEq, Repr

/-- `Uri::append_resource_path`: append the path verbatim. -/
def Uri.append_resource_path (u : Uri) (path : RStr) : Uri := ⟨u.uri ++ path⟩

/-- The `XmlDataTypes` enumeration of `xml_specs.rs`. -/
inductive XmlDataTypes where
  | String | Decimal | Double | Boolean | Date | Long | UnsignedLong | Int | Integer
deriving DecidableEq, Repr

/-- `XmlDataTypes::to_string`. -/
def XmlDataTypes.toStr (t : XmlDataTypes) : RStr :=
  ascii "http://www.w3.org/2001/XMLSchema#" ++
    match t with
    | .Boolean => ascii "boolean"
    | .Integer => ascii "integer"
    | .Decimal => ascii "decimal"
    | .Double => ascii "double"
    | .Date => ascii "date"
    | .Long => ascii "long"
    | .UnsignedLong => ascii "unsignedLong"
    | .Int => ascii "int"
    | .String => ascii "string"

/-- `XmlDataTypes::to_uri`. -/
def XmlDataTypes.to_uri (t : XmlDataTypes) : Uri := ⟨t.toStr⟩

/-- The `RdfSyntaxDataTypes` vocabulary of `rdf_syntax_specs.rs`. -/
inductive RdfSyntaxDataTypes where
  | A | ListFirst | ListRest | ListNil
deriving DecidableEq, Repr

/-- `RdfSyntaxDataTypes::to_string`. -/
def RdfSyntaxDataTypes.toStr (t : RdfSyntaxDataTypes) : RStr :=
  ascii "http://www.w3.org/1999/02/22-rdf-syntax-ns#" ++
    match t with
    | .A => ascii "type"
    | .ListFirst => ascii "first"
    | .ListRest => ascii "rest"
    | .ListNil => ascii "nil"

/-- `RdfSyntaxDataTypes::to_uri`. -/
def RdfSyntaxDataTypes.to_uri (t : RdfSyntaxDataTypes) : Uri := ⟨t.toStr⟩

/-- `RdfSyntaxSpecs::escape_literal`.  The source computes a replacement but
discards its result (`escaped_literal.replace(c, ..)` with the return value
dropped), so the function returns the literal unchanged. -/
def RdfSyntaxSpecs.escape_literal (lit : RStr) : RStr := lit

/-- The `Node` enumeration of `node.rs` (variant order is the derived `Ord`
order of the source). -/
inductive Node where
  | UriNode (uri : Uri)
  | LiteralNode (literal : RStr) (data_type : Option Uri) (language : Option RStr)
  | BlankNode (id : RStr)
deriving DecidableEq, Repr

/-- The `Triple` struct of `triple.rs`. -/
structure Triple where
  subject : Node
  predicate : Node
  object : Node
deriving DecidableEq, Repr

/-- The `TripleSegment` enumeration of `triple.rs`. -/
inductive TripleSegment where
  | Subject | Predicate | Object
deriving DecidableEq, Repr

/-- The `TripleStore` struct of `triple.rs`: an insertion-ordered sequence. -/
structure TripleStore where
  triples : List Triple
deriving DecidableEq, Repr

namespace TripleStore

/-- `TripleStore::new`. -/
def new : TripleStore := ⟨[]⟩

/-- `TripleStore::count`. -/
def count (s : TripleStore) : Nat := s.triples.length

/-- `TripleStore::is_empty`. -/
def is_empty (s : TripleStore) : Bool := count s = 0

/-- `TripleStore::add_triple`: push at the end. -/
def add_triple (s : TripleStore) (t : Triple) : TripleStore := ⟨s.triples ++ [t]⟩

/-- `TripleStore::remove_triple`: `retain(|x| x != t)` keeps, in order, exactly
the stored triples that are not structurally equal to `t`. -/
def remove_triple (s : TripleStore) (t : Triple) : TripleStore :=
  ⟨s.triples.filter (fun x => x ≠ t)⟩

end TripleStore

/-- The `NamespaceStore` of `namespace.rs`.  The source keys namespaces with a
`HashMap`; it is modelled as an association list where insertion overwrites and
iteration follows the list order (the source's iteration order is arbitrary). -/
structure NamespaceStore where
  namespaces : List (RStr × Uri)
deriving DecidableEq, Repr

namespace NamespaceStore

/-- `NamespaceStore::new`. -/
def new : NamespaceStore := ⟨[]⟩

/-- `NamespaceStore::add`: insert, overwriting an existing binding. -/
def add (ns : NamespaceStore) (pfx : RStr) (uri : Uri) : NamespaceStore :=
  ⟨(pfx, uri) :: ns.namespaces.filter (fun kv => kv.1 ≠ pfx)⟩

/-- `NamespaceStore::get_uri_by_prefix`: failure is `InvalidNamespace`. -/
def get_uri_by_pfx (ns : NamespaceStore) (pfx : RStr) : Except Error Uri :=
  match ns.namespaces.find? (fun kv => kv.1 == pfx) with
  | some kv => .ok kv.2
  | none => .error ⟨.InvalidNamespace, "Namespace does not exists for prefix."⟩

end NamespaceStore

/-- The `Graph` struct of `graph.rs`. -/
structure Graph where
  base_uri : Option Uri
  triples : TripleStore
  namespaces : NamespaceStore
  next_id : Nat
deriving DecidableEq, Repr

namespace Graph

/-- `Graph::new`. -/
def new (base : Option Uri) : Graph := ⟨base, TripleStore.new, NamespaceStore.new, 0⟩

/-- `Graph::count`. -/
def count (g : Graph) : Nat := g.triples.count

/-- `Graph::is_empty`. -/
def is_empty (g : Graph) : Bool := g.triples.is_empty

/-- `Graph::set_base_uri`. -/
def set_base_uri (g : Graph) (u : Uri) : Graph := { g with base_uri := some u }

/-- `Graph::add_namespace`. -/
def add_namespace (g : Graph) (pfx : RStr) (uri : Uri) : Graph :=
  { g with namespaces := g.namespaces.add pfx uri }

/-- `Graph::get_namespace_uri_by_prefix`. -/
def get_namespace_uri_by_pfx (g : Graph) (pfx : RStr) : Except Error Uri :=
  g.namespaces.get_uri_by_pfx pfx

/-- `Graph::create_blank_node`: mint `"auto" ++ next_id` and bump the counter. -/
def create_blank_node (g : Graph) : Node × Graph :=
  (Node.BlankNode (ascii "auto" ++ natDec g.next_id), { g with next_id := g.next_id + 1 })

/-- `Graph::add_triple`. -/
def add_triple (g : Graph) (t : Triple) : Graph :=
  { g with triples := g.triples.add_triple t }

/-- `Graph::add_triples`: add in order. -/
def add_triples (g : Graph) (ts : List Triple) : Graph := ts.foldl add_triple g

end Graph

/-- The `SparqlKeyword` enumeration of `sparql_specs.rs`. -/
inductive SparqlKeyword where
  | Base | Prefix | Select | Distinct | Reduced | Construct | Describe | Ask
  | From | Named | Order | By | Asc | Where | Desc | Offset | Optional | Filter
  | Graph | Union | Regex
deriving DecidableEq, Repr

/-- `FromStr for SparqlKeyword`: exact (case-sensitive) keyword match, failing
with `InvalidSparqlInput` otherwise. -/
def SparqlKeyword.from_str (s : RStr) : Except Error SparqlKeyword :=
  if s = ascii "BASE" then .ok .Base
  else if s = ascii "PREFIX" then .ok .Prefix
  else if s = ascii "SELECT" then .ok .Select
  else if s = ascii "DISTINCT" then .ok .Distinct
  else if s = ascii "REDUCED" then .ok .Reduced
  else if s = ascii "CONSTRUCT" then .ok .Construct
  else if s = ascii "DESCRIBE" then .ok .Describe
  else if s = ascii "ASK" then .ok .Ask
  else if s = ascii "FROM" then .ok .From
  else if s = ascii "NAMED" then .ok .Named
  else if s = ascii "ORDER" then .ok .Order
  else if s = ascii "BY" then .ok .By
  else if s = ascii "ASC" then .ok .Asc
  else if s = ascii "DESC" then .ok .Desc
  else if s = ascii "OFFSET" then .ok .Offset
  else if s = ascii "OPTIONAL" then .ok .Optional
  else if s = ascii "FILTER" then .ok .Filter
  else if s = ascii "GRAPH" then .ok .Graph
  else if s = ascii "UNION" then .ok .Union
  else if s = ascii "REGEX" then .ok .Regex
  else if s = ascii "WHERE" then .ok .Where
  else .error ⟨.InvalidSparqlInput, "Unknown SPARQL keyword"⟩

-- Lexer building blocks.  The snapshot's `n_triples_lexer.rs` holds these as
-- inherent methods while `turtle_lexer.rs`/`sparql_lexer.rs` consume them as
-- trait functions over the shared `InputReader`; they are embedded once here as
-- functions on `InputReader` (namespace `Lex`), following the source bodies.
namespace Lex

open InputReader

/-- `TokensFromRdf::consume_next_char`: read and drop one scalar (result and
errors ignored, state kept). -/
def consume_next_char (r : InputReader) : InputReader := (get_next_char r).2

/-- `get_comment`: after the dispatched `'#'`, read to the line break (consumed
on success); end of input yields the partial comment. -/
def get_comment (r : InputReader) : Except Error Token × InputReader :=
  let r0 := consume_next_char r
  match get_until_discard_leading_spaces InputReaderHelper.line_break r0 with
  | (.ok cs, r1) => (.ok (.Comment cs.toStr), consume_next_char r1)
  | (.error e, r1) =>
    match e.etype with
    | .EndOfInput chars => (.ok (.Comment chars.toStr), r1)
    | _ => (.error ⟨.InvalidReaderInput, "Invalid input for Turtle lexer while parsing comment."⟩, r1)

/-- `get_language_specification`: read to a node delimiter; end of input yields
the partial language tag. -/
def get_language_specification (r : InputReader) : Except Error RStr × InputReader :=
  match get_until (fun c => c = 10 || c = 13 || c = 32 || c = 46) r with
  | (.ok cs, r1) => (.ok cs.toStr, r1)
  | (.error e, r1) =>
    match e.etype with
    | .EndOfInput chars => (.ok chars.toStr, r1)
    | _ => (.error ⟨.InvalidReaderInput,
        "Invalid input for NTriples lexer while parsing language specification."⟩, r1)

/-- `get_uri`: consume `'<'`, read to `'>'` (errors, including `EndOfInput`,
propagate), consume `'>'`. -/
def get_uri (r : InputReader) : Except Error Token × InputReader :=
  let r0 := consume_next_char r
  match get_until (fun c => c = 62) r0 with
  | (.ok cs, r1) => (.ok (.Uri cs.toStr), consume_next_char r1)
  | (.error e, r1) => (.error e, r1)

/-- `get_blank_node`: consume `'_'`, require `':'`, then read the label to a
node delimiter; end of input yields the partial label. -/
def get_blank_node (r : InputReader) : Except Error Token × InputReader :=
  let r0 := consume_next_char r
  match get_next_char r0 with
  | (.ok (some 58), r1) =>
    match get_until (fun c => c = 10 || c = 13 || c = 32 || c = 46) r1 with
    | (.ok cs, r2) => (.ok (.BlankNode cs.toStr), r2)
    | (.error e, r2) =>
      match e.etype with
      | .EndOfInput chars => (.ok (.BlankNode chars.toStr), r2)
      | _ => (.error ⟨.InvalidReaderInput,
          "Invalid input for NTriples lexer while parsing blank node."⟩, r2)
  | (.ok (some _), r1) =>
    (.error ⟨.InvalidReaderInput, "Invalid character while parsing NTriples blank node."⟩, r1)
  | (.ok none, r1) =>
    (.error ⟨.InvalidReaderInput, "Error while parsing NTriples blank node."⟩, r1)
  | (.error e, r1) => (.error e, r1)

/-- `TokensFromTurtle::get_qname`: read the namespace part up to `':'`
(errors propagate), then the path up to a node delimiter; end of input yields
the partial path. -/
def get_qname (r : InputReader) : Except Error Token × InputReader :=
  match get_until (fun c => c = 58) r with
  | (.ok pcs, r1) =>
    let pfx := pcs.toStr ++ [58]
    let r2 := consume_next_char r1
    match get_until InputReaderHelper.node_delimiter r2 with
    | (.ok cs, r3) => (.ok (.QName pfx cs.toStr), r3)
    | (.error e, r3) =>
      match e.etype with
      | .EndOfInput chars => (.ok (.QName pfx chars.toStr), r3)
      | _ => (.error ⟨.InvalidReaderInput,
          "Invalid input for Turtle lexer while parsing QName."⟩, r3)
  | (.error e, r1) => (.error e, r1)

/-- `TokensFromTurtle::get_base_directive`: peek `"base "` case-insensitively,
skip to `'<'` (result ignored), then read the URI. -/
def get_base_directive (r : InputReader) : Except Error Token × InputReader :=
  match peek_next_k_chars r 5 with
  | (.ok cs, r1) =>
    if cs.toStr.map lowerAscii = ascii "base " then
      let r2 := (get_until (fun c => c = 60) r1).2
      match get_uri r2 with
      | (.ok (.Uri u), r3) => (.ok (.BaseDirective u), r3)
      | (.ok _, r3) => (.error ⟨.InvalidReaderInput, "Invalid URI for base directive."⟩, r3)
      | (.error e, r3) => (.error e, r3)
    else (.error ⟨.InvalidReaderInput, "Invalid URI for base directive."⟩, r1)
  | (.error e, r1) => (.error e, r1)

/-- `TokensFromTurtle::get_prefix_directive`: peek `"prefix "`, skip the
keyword, read the name up to `':'`, skip to `'<'`, read the URI. -/
def get_prefix_directive (r : InputReader) : Except Error Token × InputReader :=
  match peek_next_k_chars r 7 with
  | (.ok cs, r1) =>
    if cs.toStr.map lowerAscii = ascii "prefix " then
      let r2 := (get_until (fun c => c = 32) r1).2
      match get_until_discard_leading_spaces (fun c => c = 58) r2 with
      | (.ok ncs, r3) =>
        let name := ncs.toStr ++ [58]
        let r4 := (get_until (fun c => c = 60) r3).2
        match get_uri r4 with
        | (.ok (.Uri u), r5) => (.ok (.PrefixDirective name u), r5)
        | (.ok _, r5) => (.error ⟨.InvalidReaderInput, "Invalid URI for prefix directive."⟩, r5)
        | (.error e, r5) => (.error e, r5)
      | (.error e, r3) => (.error e, r3)
    else (.error ⟨.InvalidReaderInput, "Invalid URI for base directive."⟩, r1)
  | (.error e, r1) => (.error e, r1)

/-- `TokensFromTurtle::get_base_or_prefix`: dispatch on the peeked scalar. -/
def get_base_or_prefix (r : InputReader) : Except Error Token × InputReader :=
  match peek_next_char r with
  | (.ok (some c), r1) =>
    if c = 98 ∨ c = 66 then get_base_directive r1
    else if c = 112 ∨ c = 80 then get_prefix_directive r1
    else (.error ⟨.InvalidReaderInput,
      "Invalid input while trying to parse base or prefix definition."⟩, r1)
  | (.ok none, r1) => (.error ⟨.InvalidReaderInput,
      "Invalid input while trying to parse base or prefix definition."⟩, r1)
  | (.error e, r1) => (.error e, r1)

/-- `TokensFromTurtle::get_numeric`: read up to a node delimiter; when the
delimiter was `'.'` (consumed by the check), try to extend to a double by
peeking the continuation; otherwise classify as integer, then double. -/
def get_numeric (r : InputReader) : Except Error Token × InputReader :=
  match get_until_discard_leading_spaces InputReaderHelper.node_delimiter r with
  | (.ok numeric, r1) =>
    match get_next_char r1 with
    | (.ok nc, r2) =>
      let afterDot : Except Error Token × InputReader × Bool :=
        if nc = some 46 then
          match peek_until InputReaderHelper.node_delimiter r2 with
          | (.ok more, r3) =>
            let complete := numeric ++ [some 46] ++ more
            if TurtleSpecs.is_double_literal complete.toStr then
              match get_until_discard_leading_spaces InputReaderHelper.node_delimiter r3 with
              | (.ok _, r4) =>
                (.ok (.LiteralWithUrlDatatype complete.toStr XmlDataTypes.Double.toStr), r4, true)
              | (.error e, r4) => (.error e, r4, true)
            else (.ok .EndOfInput, r3, false)
          | (.error _, r3) => (.ok .EndOfInput, r3, false)
        else (.ok .EndOfInput, r2, false)
      match afterDot with
      | (res, rA, true) => (res, rA)
      | (_, rA, false) =>
        if TurtleSpecs.is_integer_literal numeric.toStr then
          (.ok (.LiteralWithUrlDatatype numeric.toStr XmlDataTypes.Integer.toStr), rA)
        else if TurtleSpecs.is_double_literal numeric.toStr then
          (.ok (.LiteralWithUrlDatatype numeric.toStr XmlDataTypes.Double.toStr), rA)
        else (.error ⟨.InvalidReaderInput, "Invalid input for numeric literal."⟩, rA)
    | (.error e, r2) => (.error e, r2)
  | (.error e, r1) => (.error e, r1)

/-- `TokensFromTurtle::get_boolean_literal`: peek to a node delimiter and
accept exactly `true`/`false`. -/
def get_boolean_literal (r : InputReader) : Except Error Token × InputReader :=
  match peek_until_discard_leading_spaces InputReaderHelper.node_delimiter r with
  | (.ok cs, r1) =>
    if TurtleSpecs.is_boolean_literal cs.toStr then
      (.ok (.LiteralWithUrlDatatype cs.toStr XmlDataTypes.Boolean.toStr), r1)
    else (.error ⟨.InvalidReaderInput, "Invalid input for boolean."⟩, r1)
  | (.error e, r1) => (.error e, r1)

/-- `TokensFromTurtle::get_a_keyword`: peek to a node delimiter and accept
exactly the single scalar `'a'`. -/
def get_a_keyword (r : InputReader) : Except Error Token × InputReader :=
  match peek_until_discard_leading_spaces InputReaderHelper.node_delimiter r with
  | (.ok cs, r1) =>
    if cs.length = 1 ∧ cs.getD 0 none = some 97 then (.ok .KeywordA, r1)
    else (.error ⟨.InvalidReaderInput, "Invalid input for keyword a."⟩, r1)
  | (.error e, r1) => (.error e, r1)

/-- Body loop of `TokensFromTurtle::get_literal`, with fuel: accumulate up to
the quote; a multiline literal ends only on two further delimiter quotes, and
otherwise keeps the single quote and continues. -/
def get_literal_loop (d : Nat) (is_multiline : Bool) :
    Nat → RStr → InputReader → Except Error RStr × InputReader
  | 0, _, r => (.error ⟨.EmbeddingFuel, "fuel"⟩, r)
  | fuel+1, lit, r =>
    match get_until (fun c => c = d) r with
    | (.ok cs, r1) =>
      let lit2 := lit ++ cs.toStr
      if is_multiline then
        match peek_next_k_chars r1 2 with
        | (.ok pot, r2) =>
          if pot.getD 0 none = some d ∧ pot.getD 1 none = some d then
            (.ok lit2, consume_next_char (consume_next_char r2))
          else
            match get_next_k_chars 1 r2 with
            | (.ok one, r3) => get_literal_loop d is_multiline fuel (lit2 ++ one.toStr) r3
            | (.error e, r3) => (.error e, r3)
        | (.error e, r2) => (.error e, r2)
      else (.ok lit2, r1)
    | (.error e, r1) => (.error e, r1)

/-- `TokensFromTurtle::get_literal`: quoted (or triple-quoted) literal with an
optional `@lang` or `^^` datatype suffix. -/
def get_literal (r : InputReader) : Except Error Token × InputReader :=
  match get_next_char r with
  | (.ok ld, r1) =>
    -- `literal_delimiter.unwrap()`: the dispatcher guarantees a present quote.
    let d := ld.getD 0
    match peek_next_k_chars r1 2 with
    | (.ok pot, r2) =>
      let is_multiline := pot.getD 0 none = some d ∧ pot.getD 1 none = some d
      let r3 := if is_multiline then (get_next_k_chars 2 r2).2 else r2
      match get_literal_loop d is_multiline (size r3 + 1) [] r3 with
      | (.ok lit, r4) =>
        let r5 := consume_next_char r4
        match peek_next_char r5 with
        | (.ok (some 64), r6) =>
          let r7 := consume_next_char r6
          match get_language_specification r7 with
          | (.ok lang, r8) => (.ok (.LiteralWithLanguageSpecification lit lang), r8)
          | (.error e, r8) => (.error e, r8)
        | (.ok (some 94), r6) =>
          let r7 := consume_next_char (consume_next_char r6)
          match peek_next_char r7 with
          | (.ok (some 60), r8) =>
            match get_uri r8 with
            | (.ok (.Uri dt), r9) => (.ok (.LiteralWithUrlDatatype lit dt), r9)
            | (.ok _, r9) =>
              (.error ⟨.InvalidReaderInput, "Invalid data type URI for Turtle literal."⟩, r9)
            | (.error e, r9) => (.error e, r9)
          | (.ok (some _), r8) =>
            match get_qname r8 with
            | (.ok (.QName p pa), r9) => (.ok (.LiteralWithQNameDatatype lit p pa), r9)
            | (.ok _, r9) =>
              (.error ⟨.InvalidReaderInput, "Invalid Turtle input for parsing QName data type."⟩, r9)
            | (.error e, r9) => (.error e, r9)
          | (.ok none, r8) => (.error ⟨.InvalidReaderInput, "Invalid Turtle input."⟩, r8)
          | (.error e, r8) => (.error e, r8)
        | (.ok _, r6) => (.ok (.Literal lit), r6)
        | (.error e, r6) => (.error e, r6)
      | (.error e, r4) => (.error e, r4)
    | (.error e, r2) => (.error e, r2)
  | (.error e, r1) => (.error e, r1)

end Lex

/-- The `TurtleLexer` struct: input reader plus the one-token peek cache. -/
structure TurtleLexer where
  reader : InputReader
  peeked_token : Option Token
deriving DecidableEq, Repr

namespace TurtleLexer

/-- First-scalar dispatch of `TurtleLexer::get_next_token` (the body of the
source's `match` on the peeked character, receiving the post-peek reader). -/
def dispatch (oc : Option Nat) (r : InputReader) : Except Error Token × InputReader :=
  match oc with
  | none => (.ok .EndOfInput, r)
  | some c =>
    if c = 35 then Lex.get_comment r
    else if c = 64 then Lex.get_base_or_prefix (Lex.consume_next_char r)
    else if c = 34 ∨ c = 39 then Lex.get_literal r
    else if c = 60 then Lex.get_uri r
    else if c = 95 then Lex.get_blank_node r
    else if c = 46 then
      match Lex.get_numeric r with
      | (.ok t, r1) => (.ok t, r1)
      | (.error _, r1) => (.ok .TripleDelimiter, r1)
    else if c = 44 then (.ok .ObjectListDelimiter, Lex.consume_next_char r)
    else if c = 59 then (.ok .PredicateListDelimiter, Lex.consume_next_char r)
    else if c = 40 then (.ok .CollectionStart, Lex.consume_next_char r)
    else if c = 41 then (.ok .CollectionEnd, Lex.consume_next_char r)
    else if c = 91 then (.ok .UnlabeledBlankNodeStart, Lex.consume_next_char r)
    else if c = 93 then (.ok .UnlabeledBlankNodeEnd, Lex.consume_next_char r)
    else if c = 80 ∨ c = 66 then
      match Lex.get_base_or_prefix r with
      | (.ok t, r1) => (.ok t, r1)
      | (.error _, r1) => Lex.get_qname r1
    else if c = 116 ∨ c = 102 then
      match Lex.get_boolean_literal r with
      | (.ok t, r1) => (.ok t, r1)
      | (.error _, r1) => Lex.get_qname r1
    else if c = 97 then
      match Lex.get_a_keyword r with
      | (.ok t, r1) => (.ok t, r1)
      | (.error _, r1) => Lex.get_qname r1
    else if c = 43 ∨ c = 45 then Lex.get_numeric r
    else if InputReaderHelper.digit c then Lex.get_numeric r
    else Lex.get_qname r

/-- `TurtleLexer::get_next_token`: serve the cached token, else peek the first
non-whitespace scalar and dispatch. -/
def get_next_token (lx : TurtleLexer) : Except Error Token × TurtleLexer :=
  match lx.peeked_token with
  | some t => (.ok t, ⟨lx.reader, none⟩)
  | none =>
    match InputReader.peek_next_char_discard_leading_spaces lx.reader with
    | (.ok oc, r1) =>
      match dispatch oc r1 with
      | (res, r2) => (res, ⟨r2, none⟩)
    | (.error e, r1) => (.error e, ⟨r1, none⟩)

/-- `TurtleLexer::peek_next_token`: `get_next_token` with caching (errors are
not cached). -/
def peek_next_token (lx : TurtleLexer) : Except Error Token × TurtleLexer :=
  match lx.peeked_token with
  | some t => (.ok t, lx)
  | none =>
    match get_next_token lx with
    | (.ok t, lx1) => (.ok t, ⟨lx1.reader, some t⟩)
    | (.error e, lx1) => (.error e, lx1)

/-- `TurtleLexer::new` over a byte stream. -/
def new (bytes : List Nat) : TurtleLexer := ⟨⟨bytes, []⟩, none⟩

end TurtleLexer

namespace TurtleParser

/-- Error used for arms that are unreachable by construction of `TStep.run`
(a call kind always produces its own output kind). -/
def unreachableErr : Error := ⟨.EmbeddingFuel, "unreachable output kind"⟩

/-- Call tags for the mutually recursive functions of `TurtleParser`
(`read_subject`, `read_object`, `read_collection` and its loop,
`read_unlabeled_blank_node`, `read_predicate_object_list` and its loop,
`read_predicate_with_object`), combined into one fuel-indexed function so the
recursion is structural on the fuel. -/
inductive TCall where
  | subject
  | object
  | collection
  | collectionLoop (subj next : Node)
  | unlabeled
  | predObjList (subj : Node)
  | predObjLoop (subj pred : Node) (acc : List Triple)
  | predWithObj

/-- Result kinds of the calls above: a node, a (predicate, object) pair, or a
triple list. -/
inductive TOut where
  | node (n : Node)
  | pair (pred obj : Node)
  | triples (ts : List Triple)

/-- QName resolution shared by subject/predicate/object positions: look the
namespace up and append the path with `':'` translated to `'/'`. -/
def resolveQName (g : Graph) (pfx path : RStr) : Except Error Node :=
  match g.get_namespace_uri_by_pfx pfx with
  | .ok u => .ok (.UriNode (u.append_resource_path (replaceAll [58] [47] path)))
  | .error e => .error e

/-- One engine for the mutually recursive reading functions of
`turtle_parser.rs`; each arm transcribes the corresponding source function.
Errors abort the call (the caller never resumes), so no state accompanies the
error case. -/
def tstep : Nat → TCall → Graph → TurtleLexer → Except Error (TOut × Graph × TurtleLexer)
  | 0, _, _, _ => .error ⟨.EmbeddingFuel, "fuel"⟩
  | fuel+1, call, g, lx =>
    match call with
    | .subject =>
      -- `read_subject`
      match TurtleLexer.get_next_token lx with
      | (.ok (.BlankNode id), lx1) => .ok (.node (.BlankNode id), g, lx1)
      | (.ok (.QName pfx path), lx1) =>
        match resolveQName g pfx path with
        | .ok n => .ok (.node n, g, lx1)
        | .error e => .error e
      | (.ok (.Uri u), lx1) => .ok (.node (.UriNode ⟨u⟩), g, lx1)
      | (.ok .CollectionStart, lx1) => tstep fuel .collection g lx1
      | (.ok .UnlabeledBlankNodeStart, lx1) => tstep fuel .unlabeled g lx1
      | (.ok _, _) => .error ⟨.InvalidToken, "Invalid token for Turtle subject."⟩
      | (.error e, _) => .error e
    | .object =>
      -- `read_object`
      match TurtleLexer.get_next_token lx with
      | (.ok (.BlankNode id), lx1) => .ok (.node (.BlankNode id), g, lx1)
      | (.ok (.Uri u), lx1) => .ok (.node (.UriNode ⟨u⟩), g, lx1)
      | (.ok (.QName pfx path), lx1) =>
        match resolveQName g pfx path with
        | .ok n => .ok (.node n, g, lx1)
        | .error e => .error e
      | (.ok (.LiteralWithLanguageSpecification lit lang), lx1) =>
        .ok (.node (.LiteralNode lit none (some lang)), g, lx1)
      | (.ok (.LiteralWithUrlDatatype lit dt), lx1) =>
        .ok (.node (.LiteralNode lit (some ⟨dt⟩) none), g, lx1)
      | (.ok (.Literal lit), lx1) => .ok (.node (.LiteralNode lit none none), g, lx1)
      | (.ok .CollectionStart, lx1) => tstep fuel .collection g lx1
      | (.ok .UnlabeledBlankNodeStart, lx1) => tstep fuel .unlabeled g lx1
      | (.ok _, _) => .error ⟨.InvalidToken, "Invalid token for Turtle object."⟩
      | (.error e, _) => .error e
    | .collection =>
      -- `read_collection`, up to the loop
      match TurtleLexer.peek_next_token lx with
      | (.ok t, lx1) =>
        if t = .CollectionEnd then
          match TurtleLexer.get_next_token lx1 with
          | (.ok _, lx2) => .ok (.node (.UriNode RdfSyntaxDataTypes.ListNil.to_uri), g, lx2)
          | (.error e, _) => .error e
        else
          match g.create_blank_node with
          | (subj, g1) => tstep fuel (.collectionLoop subj subj) g1 lx1
      | (.error e, _) => .error e
    | .collectionLoop subj next =>
      -- loop body of `read_collection`
      match g.create_blank_node with
      | (rest, g1) =>
        match tstep fuel .object g1 lx with
        | .ok (.node obj, g2, lx1) =>
          let g3 := g2.add_triple ⟨next, .UriNode RdfSyntaxDataTypes.ListFirst.to_uri, obj⟩
          match TurtleLexer.peek_next_token lx1 with
          | (.ok t, lx2) =>
            if t = .CollectionEnd then
              match TurtleLexer.get_next_token lx2 with
              | (.ok _, lx3) =>
                let g4 := g3.add_triple ⟨next, .UriNode RdfSyntaxDataTypes.ListRest.to_uri,
                  .UriNode RdfSyntaxDataTypes.ListNil.to_uri⟩
                .ok (.node subj, g4, lx3)
              | (.error e, _) => .error e
            else
              let g4 := g3.add_triple ⟨next, .UriNode RdfSyntaxDataTypes.ListRest.to_uri, rest⟩
              tstep fuel (.collectionLoop subj rest) g4 lx2
          | (.error e, _) => .error e
        | .ok (_, _, _) => .error unreachableErr
        | .error e => .error e
    | .unlabeled =>
      -- `read_unlabeled_blank_node`
      match g.create_blank_node with
      | (subj, g1) =>
        match TurtleLexer.peek_next_token lx with
        | (.ok t, lx1) =>
          if t = .UnlabeledBlankNodeEnd then
            match TurtleLexer.get_next_token lx1 with
            | (.ok _, lx2) => .ok (.node subj, g1, lx2)
            | (.error e, _) => .error e
          else
            match tstep fuel (.predObjList subj) g1 lx1 with
            | .ok (.triples ts, g2, lx2) => .ok (.node subj, g2.add_triples ts, lx2)
            | .ok (_, _, _) => .error unreachableErr
            | .error e => .error e
        | (.error e, _) => .error e
    | .predObjList subj =>
      -- `read_predicate_object_list`, first pair then the loop
      match tstep fuel .predWithObj g lx with
      | .ok (.pair pred obj, g1, lx1) =>
        tstep fuel (.predObjLoop subj pred [⟨subj, pred, obj⟩]) g1 lx1
      | .ok (_, _, _) => .error unreachableErr
      | .error e => .error e
    | .predObjLoop subj pred acc =>
      -- loop body of `read_predicate_object_list`; the `','` arm uses the
      -- carried `pred`, which in the source is the statement's FIRST predicate
      -- (the `';'` arm rebinds `predicate` only inside its own arm)
      match TurtleLexer.get_next_token lx with
      | (.ok .TripleDelimiter, lx1) => .ok (.triples acc, g, lx1)
      | (.ok .UnlabeledBlankNodeEnd, lx1) => .ok (.triples acc, g, lx1)
      | (.ok .PredicateListDelimiter, lx1) =>
        match tstep fuel .predWithObj g lx1 with
        | .ok (.pair p2 o2, g1, lx2) =>
          tstep fuel (.predObjLoop subj pred (acc ++ [⟨subj, p2, o2⟩])) g1 lx2
        | .ok (_, _, _) => .error unreachableErr
        | .error e => .error e
      | (.ok .ObjectListDelimiter, lx1) =>
        match tstep fuel .object g lx1 with
        | .ok (.node o, g1, lx2) =>
          tstep fuel (.predObjLoop subj pred (acc ++ [⟨subj, pred, o⟩])) g1 lx2
        | .ok (_, _, _) => .error unreachableErr
        | .error e => .error e
      | (.ok _, _) => .error ⟨.InvalidToken, "Invalid token while reading Turtle triples."⟩
      | (.error e, _) => .error e
    | .predWithObj =>
      -- `read_predicate_with_object`
      let readObj := fun (pred : Node) (g1 : Graph) (lx1 : TurtleLexer) =>
        match tstep fuel .object g1 lx1 with
        | .ok (.node obj, g2, lx2) => .ok (.pair pred obj, g2, lx2)
        | .ok (_, _, _) => .error unreachableErr
        | .error e => .error e
      match TurtleLexer.get_next_token lx with
      | (.ok (.Uri u), lx1) => readObj (.UriNode ⟨u⟩) g lx1
      | (.ok .KeywordA, lx1) => readObj (.UriNode RdfSyntaxDataTypes.A.to_uri) g lx1
      | (.ok (.QName pfx path), lx1) =>
        match resolveQName g pfx path with
        | .ok n => readObj n g lx1
        | .error e => .error e
      | (.ok (.BlankNode id), lx1) => readObj (.BlankNode id) g lx1
      | (.ok _, _) => .error ⟨.InvalidToken, "Invalid token for Turtle predicate."⟩
      | (.error e, _) => .error e

/-- `TurtleParser::read_triples`: one subject and its predicate-object list. -/
def read_triples (fuel : Nat) (g : Graph) (lx : TurtleLexer) :
    Except Error (List Triple × Graph × TurtleLexer) :=
  match tstep fuel .subject g lx with
  | .ok (.node subj, g1, lx1) =>
    match tstep fuel (.predObjList subj) g1 lx1 with
    | .ok (.triples ts, g2, lx2) => .ok (ts, g2, lx2)
    | .ok (_, _, _) => .error unreachableErr
    | .error e => .error e
  | .ok (_, _, _) => .error unreachableErr
  | .error e => .error e

/-- `TurtleParser::read_base_directive`: directive token then mandatory dot. -/
def read_base_directive (lx : TurtleLexer) : Except Error (Uri × TurtleLexer) :=
  match TurtleLexer.get_next_token lx with
  | (.ok (.BaseDirective u), lx1) =>
    match TurtleLexer.get_next_token lx1 with
    | (.ok .TripleDelimiter, lx2) => .ok (⟨u⟩, lx2)
    | (.ok _, _) => .error ⟨.InvalidReaderInput, "Turtle base directive does not end with dot"⟩
    | (.error e, _) => .error e
  | (.ok _, _) => .error ⟨.InvalidReaderInput, "Invalid input for Turtle base directive."⟩
  | (.error e, _) => .error e

/-- `TurtleParser::read_prefix_directive`: directive token then mandatory dot. -/
def read_prefix_directive (lx : TurtleLexer) : Except Error (RStr × Uri × TurtleLexer) :=
  match TurtleLexer.get_next_token lx with
  | (.ok (.PrefixDirective name u), lx1) =>
    match TurtleLexer.get_next_token lx1 with
    | (.ok .TripleDelimiter, lx2) => .ok (name, ⟨u⟩, lx2)
    | (.ok _, _) => .error ⟨.InvalidReaderInput, "Turtle prefix directive does not end with dot"⟩
    | (.error e, _) => .error e
  | (.ok _, _) => .error ⟨.InvalidReaderInput, "Invalid input for Turtle prefix."⟩
  | (.error e, _) => .error e

/-- Top-level loop of `TurtleParser::decode`. -/
def decodeLoop : Nat → Graph → TurtleLexer → Except Error Graph
  | 0, _, _ => .error ⟨.EmbeddingFuel, "fuel"⟩
  | fuel+1, g, lx =>
    match TurtleLexer.peek_next_token lx with
    | (.ok (.Comment _), lx1) => decodeLoop fuel g (TurtleLexer.get_next_token lx1).2
    | (.ok .EndOfInput, _) => .ok g
    | (.ok (.BaseDirective _), lx1) =>
      match read_base_directive lx1 with
      | .ok (u, lx2) => decodeLoop fuel (g.set_base_uri u) lx2
      | .error e => .error e
    | (.ok (.PrefixDirective _ _), lx1) =>
      match read_prefix_directive lx1 with
      | .ok (name, u, lx2) => decodeLoop fuel (g.add_namespace name u) lx2
      | .error e => .error e
    | (.ok (.Uri _), lx1) | (.ok (.BlankNode _), lx1) | (.ok (.QName _ _), lx1)
    | (.ok .CollectionStart, lx1) | (.ok .UnlabeledBlankNodeStart, lx1) =>
      match read_triples fuel g lx1 with
      | .ok (ts, g1, lx2) => decodeLoop fuel (g1.add_triples ts) lx2
      | .error e => .error e
    | (.ok _, _) => .error ⟨.InvalidToken, "Invalid token while parsing Turtle syntax."⟩
    | (.error e, _) =>
      match e.etype with
      | .EndOfInput _ => .ok g
      | _ => .error ⟨.InvalidReaderInput, "Error while parsing Turtle syntax."⟩

/-- `TurtleParser::decode` over a byte stream: start from the empty graph.  The
fuel bounds the depth of the parsing recursion; `input.length + 16` dominates
it because every nesting level and loop turn consumes input. -/
def decode (bytes : List Nat) : Except Error Graph :=
  decodeLoop (bytes.length + 16) (Graph.new none) (TurtleLexer.new bytes)

end TurtleParser

/-- The `SparqlLexer` struct: input reader plus the one-token peek cache. -/
structure SparqlLexer where
  reader : InputReader
  peeked_token : Option Token
deriving DecidableEq, Repr

namespace SparqlLexer

/-- `TokensFromSparql::get_qname_or_keyword`: consume the word up to a space;
a SPARQL keyword maps to its token, `BASE`/`PREFIX` fall back to a QName read,
and a non-keyword word propagates the `InvalidSparqlInput` parse failure (the
source applies `?` to `parse::<SparqlKeyword>()`). -/
def get_qname_or_keyword (r : InputReader) : Except Error Token × InputReader :=
  match InputReader.get_until (fun c => c = 32) r with
  | (.ok cs, r1) =>
    match SparqlKeyword.from_str cs.toStr with
    | .ok kw =>
      match kw with
      | .Select => (.ok .Select, r1)
      | .Where => (.ok .Where, r1)
      | .Distinct => (.ok .Distinct, r1)
      | .Reduced => (.ok .Reduced, r1)
      | .Construct => (.ok .Construct, r1)
      | .Describe => (.ok .Describe, r1)
      | .Ask => (.ok .Ask, r1)
      | .From => (.ok .From, r1)
      | .Named => (.ok .Named, r1)
      | .Order => (.ok .Order, r1)
      | .By => (.ok .By, r1)
      | .Asc => (.ok .Asc, r1)
      | .Desc => (.ok .Desc, r1)
      | .Offset => (.ok .Offset, r1)
      | .Optional => (.ok .Optional, r1)
      | .Filter => (.ok .Filter, r1)
      | .Graph => (.ok .Graph, r1)
      | .Union => (.ok .Union, r1)
      | .Regex => (.ok .Regex, r1)
      | .Base => Lex.get_qname r1
      | .Prefix => Lex.get_qname r1
    | .error e => (.error e, r1)
  | (.error e, r1) => (.error e, r1)

/-- `TokensFromSparql::get_variable`: the name runs to a node delimiter. -/
def get_variable (r : InputReader) : Except Error Token × InputReader :=
  match InputReader.get_until_discard_leading_spaces InputReaderHelper.node_delimiter r with
  | (.ok cs, r1) => (.ok (.SparqlVariable cs.toStr), r1)
  | (.error e, r1) => (.error e, r1)

/-- First-scalar dispatch of `SparqlLexer::get_next_token` (the `'P'`/`'B'`
branch tries the Turtle `get_base_or_prefix` and falls through to
`get_qname_or_keyword` on failure, as does the catch-all). -/
def dispatch (oc : Option Nat) (r : InputReader) : Except Error Token × InputReader :=
  match oc with
  | none => (.ok .EndOfInput, r)
  | some c =>
    if c = 35 then Lex.get_comment r
    else if c = 80 ∨ c = 66 then
      match Lex.get_base_or_prefix r with
      | (.ok t, r1) => (.ok t, r1)
      | (.error _, r1) => get_qname_or_keyword r1
    else if c = 34 ∨ c = 39 then Lex.get_literal r
    else if c = 60 then Lex.get_uri r
    else if c = 95 then Lex.get_blank_node r
    else if c = 46 then
      match Lex.get_numeric r with
      | (.ok t, r1) => (.ok t, r1)
      | (.error _, r1) => (.ok .TripleDelimiter, r1)
    else if c = 91 then (.ok .UnlabeledBlankNodeStart, Lex.consume_next_char r)
    else if c = 93 then (.ok .UnlabeledBlankNodeEnd, Lex.consume_next_char r)
    else if c = 123 then (.ok .GroupStart, Lex.consume_next_char r)
    else if c = 125 then (.ok .GroupEnd, Lex.consume_next_char r)
    else if c = 44 then (.ok .ObjectListDelimiter, Lex.consume_next_char r)
    else if c = 59 then (.ok .PredicateListDelimiter, Lex.consume_next_char r)
    else if c = 42 then (.ok .Asterisk, Lex.consume_next_char r)
    else if c = 63 ∨ c = 36 then get_variable (Lex.consume_next_char r)
    else if c = 43 ∨ c = 45 then Lex.get_numeric r
    else if InputReaderHelper.digit c then Lex.get_numeric r
    else get_qname_or_keyword r

/-- `SparqlLexer::get_next_token`. -/
def get_next_token (lx : SparqlLexer) : Except Error Token × SparqlLexer :=
  match lx.peeked_token with
  | some t => (.ok t, ⟨lx.reader, none⟩)
  | none =>
    match InputReader.peek_next_char_discard_leading_spaces lx.reader with
    | (.ok oc, r1) =>
      match dispatch oc r1 with
      | (res, r2) => (res, ⟨r2, none⟩)
    | (.error e, r1) => (.error e, ⟨r1, none⟩)

/-- `SparqlLexer::peek_next_token`. -/
def peek_next_token (lx : SparqlLexer) : Except Error Token × SparqlLexer :=
  match lx.peeked_token with
  | some t => (.ok t, lx)
  | none =>
    match get_next_token lx with
    | (.ok t, lx1) => (.ok t, ⟨lx1.reader, some t⟩)
    | (.error e, lx1) => (.error e, lx1)

/-- `SparqlLexer::new` over a byte stream. -/
def new (bytes : List Nat) : SparqlLexer := ⟨⟨bytes, []⟩, none⟩

end SparqlLexer

/-- The `NodePattern` enumeration of `pattern.rs`. -/
inductive NodePattern where
  | VariableNode (name : RStr)
  | FixedNode (node : Node)
deriving DecidableEq, Repr

/-- The `Pattern` family of `pattern.rs` (a dyn-trait upstream), as a closed
tagged union: group patterns and triple patterns, each carrying the source's
`is_union`/`is_optional` flags. -/
inductive SPattern where
  | group (patterns : List SPattern) (is_union is_optional : Bool)
  | triple (subject predicate object : NodePattern) (is_union is_optional : Bool)
deriving Repr

/-- The `SparqlQueryType` enumeration of `query.rs`. -/
inductive SparqlQueryType where
  | Ask | Select | SelectDistinct | SelectReduced | SelectAll | SelectAllDistinct
  | SelectAllReduced | Construct | Describe
deriving DecidableEq, Repr

/-- The `SparqlQuery` struct of `query.rs` (the source's `variables` field is
`query_variables` here, matching its getter, because `variables` is a reserved
word in Lean). -/
structure SparqlQuery where
  query_type : SparqlQueryType
  base_uri : Option Uri
  namespaces : NamespaceStore
  query_variables : List RStr
  patterns : List SPattern
deriving Repr

namespace SparqlQuery

/-- `SparqlQuery::new`. -/
def new (qt : SparqlQueryType) : SparqlQuery := ⟨qt, none, NamespaceStore.new, [], []⟩

/-- `SparqlQuery::add_pattern`. -/
def add_pattern (q : SparqlQuery) (p : SPattern) : SparqlQuery :=
  { q with patterns := q.patterns ++ [p] }

/-- `SparqlQuery::add_variables`. -/
def add_variables (q : SparqlQuery) (vs : List RStr) : SparqlQuery :=
  { q with query_variables := vs }

/-- `SparqlQuery::get_namespace_uri_by_prefix`. -/
def get_namespace_uri_by_pfx (q : SparqlQuery) (pfx : RStr) : Except Error Uri :=
  q.namespaces.get_uri_by_pfx pfx

end SparqlQuery

namespace SparqlParser

/-- QName resolution against the query's namespaces (as in the Turtle
parser). -/
def resolveQName (q : SparqlQuery) (pfx path : RStr) : Except Error Node :=
  match q.get_namespace_uri_by_pfx pfx with
  | .ok u => .ok (.UriNode (u.append_resource_path (replaceAll [58] [47] path)))
  | .error e => .error e

/-- `SparqlParser::read_object_pattern`. -/
def read_object_pattern (q : SparqlQuery) (lx : SparqlLexer) :
    Except Error (NodePattern × SparqlLexer) :=
  match SparqlLexer.get_next_token lx with
  | (.ok (.BlankNode id), lx1) => .ok (.FixedNode (.BlankNode id), lx1)
  | (.ok (.Uri u), lx1) => .ok (.FixedNode (.UriNode ⟨u⟩), lx1)
  | (.ok (.QName pfx path), lx1) =>
    match resolveQName q pfx path with
    | .ok n => .ok (.FixedNode n, lx1)
    | .error e => .error e
  | (.ok (.SparqlVariable name), lx1) => .ok (.VariableNode name, lx1)
  | (.ok (.LiteralWithLanguageSpecification lit lang), lx1) =>
    .ok (.FixedNode (.LiteralNode lit none (some lang)), lx1)
  | (.ok (.LiteralWithUrlDatatype lit dt), lx1) =>
    .ok (.FixedNode (.LiteralNode lit (some ⟨dt⟩) none), lx1)
  | (.ok (.Literal lit), lx1) => .ok (.FixedNode (.LiteralNode lit none none), lx1)
  | (.ok _, _) => .error ⟨.InvalidToken, "Invalid token for SPARQL object pattern."⟩
  | (.error e, _) => .error e

/-- `SparqlParser::read_subject_pattern`. -/
def read_subject_pattern (q : SparqlQuery) (lx : SparqlLexer) :
    Except Error (NodePattern × SparqlLexer) :=
  match SparqlLexer.get_next_token lx with
  | (.ok (.BlankNode id), lx1) => .ok (.FixedNode (.BlankNode id), lx1)
  | (.ok (.QName pfx path), lx1) =>
    match resolveQName q pfx path with
    | .ok n => .ok (.FixedNode n, lx1)
    | .error e => .error e
  | (.ok (.Uri u), lx1) => .ok (.FixedNode (.UriNode ⟨u⟩), lx1)
  | (.ok (.SparqlVariable name), lx1) => .ok (.VariableNode name, lx1)
  | (.ok _, _) => .error ⟨.InvalidToken, "Invalid token for SPARQL subject pattern."⟩
  | (.error e, _) => .error e

/-- `SparqlParser::read_predicate_with_object_pattern`. -/
def read_predicate_with_object_pattern (q : SparqlQuery) (lx : SparqlLexer) :
    Except Error ((NodePattern × NodePattern) × SparqlLexer) :=
  let withPred := fun (pred : NodePattern) (lx1 : SparqlLexer) =>
    match read_object_pattern q lx1 with
    | .ok (obj, lx2) => .ok ((pred, obj), lx2)
    | .error e => .error e
  match SparqlLexer.get_next_token lx with
  | (.ok (.Uri u), lx1) => withPred (.FixedNode (.UriNode ⟨u⟩)) lx1
  | (.ok .KeywordA, lx1) => withPred (.FixedNode (.UriNode RdfSyntaxDataTypes.A.to_uri)) lx1
  | (.ok (.QName pfx path), lx1) =>
    match resolveQName q pfx path with
    | .ok n => withPred (.FixedNode n) lx1
    | .error e => .error e
  | (.ok (.BlankNode id), lx1) => withPred (.FixedNode (.BlankNode id)) lx1
  | (.ok (.SparqlVariable name), lx1) => withPred (.VariableNode name) lx1
  | (.ok _, _) => .error ⟨.InvalidToken, "Invalid token for SPARQL triple pattern predicate."⟩
  | (.error e, _) => .error e

/-- Loop body of `read_predicate_object_list_pattern`, carrying the statement's
first predicate (the `','` arm of the source refers to the outer `predicate`
binding, as in the Turtle parser). -/
def rpolLoop : Nat → SparqlQuery → NodePattern → NodePattern → List SPattern → SparqlLexer →
    Except Error (List SPattern × SparqlLexer)
  | 0, _, _, _, _, _ => .error ⟨.EmbeddingFuel, "fuel"⟩
  | fuel+1, q, subj, pred, acc, lx =>
    match SparqlLexer.peek_next_token lx with
    | (.ok .TripleDelimiter, lx1) => .ok (acc, (SparqlLexer.get_next_token lx1).2)
    | (.ok .GroupEnd, lx1) => .ok (acc, lx1)
    | (.ok .PredicateListDelimiter, lx1) =>
      let lx2 := (SparqlLexer.get_next_token lx1).2
      match read_predicate_with_object_pattern q lx2 with
      | .ok ((p2, o2), lx3) =>
        rpolLoop fuel q subj pred (acc ++ [.triple subj p2 o2 false false]) lx3
      | .error e => .error e
    | (.ok .ObjectListDelimiter, lx1) =>
      let lx2 := (SparqlLexer.get_next_token lx1).2
      match read_object_pattern q lx2 with
      | .ok (o, lx3) =>
        rpolLoop fuel q subj pred (acc ++ [.triple subj pred o false false]) lx3
      | .error e => .error e
    | (.ok _, _) => .error ⟨.InvalidToken, "Invalid token while reading SPARQL triples patterns"⟩
    | (.error e, _) => .error e

/-- `SparqlParser::read_triples_pattern` with
`read_predicate_object_list_pattern`. -/
def read_triples_pattern (fuel : Nat) (q : SparqlQuery) (lx : SparqlLexer) :
    Except Error (List SPattern × SparqlLexer) :=
  match read_subject_pattern q lx with
  | .ok (subj, lx1) =>
    match read_predicate_with_object_pattern q lx1 with
    | .ok ((pred, obj), lx2) =>
      rpolLoop fuel q subj pred [.triple subj pred obj false false] lx2
    | .error e => .error e
  | .error e => .error e

/-- Loop of `SparqlParser::parse_group`, with fuel.  `FILTER` and the
unhandled tokens (`UNION` among them) leave the peeked token in place and loop
again, faithfully modelling the source's no-op arms (which never terminate);
fuel exhaustion stands in for that divergence. -/
def parse_group_loop : Nat → SparqlQuery → List SPattern → SparqlLexer →
    Except Error (List SPattern × SparqlLexer)
  | 0, _, _, _ => .error ⟨.EmbeddingFuel, "fuel"⟩
  | fuel+1, q, acc, lx =>
    match SparqlLexer.peek_next_token lx with
    | (.ok t, lx1) =>
      match t with
      | .SparqlVariable _ | .BlankNode _ | .QName _ _ | .Uri _ =>
        match read_triples_pattern fuel q lx1 with
        | .ok (ps, lx2) => parse_group_loop fuel q (acc ++ ps) lx2
        | .error e => .error e
      | .Optional =>
        let lx2 := (SparqlLexer.get_next_token lx1).2
        let lx3 := (SparqlLexer.get_next_token lx2).2
        match parse_group_loop fuel q [] lx3 with
        | .ok (ps, lx4) => parse_group_loop fuel q (acc ++ [.group ps false true]) lx4
        | .error e => .error e
      | .GroupStart =>
        let lx2 := (SparqlLexer.get_next_token lx1).2
        match parse_group_loop fuel q [] lx2 with
        | .ok (ps, lx3) => parse_group_loop fuel q (acc ++ [.group ps false false]) lx3
        | .error e => .error e
      | .Filter => parse_group_loop fuel q acc lx1
      | .GroupEnd => .ok (acc, (SparqlLexer.get_next_token lx1).2)
      | _ => parse_group_loop fuel q acc lx1
    | (.error e, _) => .error e

/-- Loop gathering the projected variables of `read_select_query`. -/
def varsLoop : Nat → List RStr → SparqlLexer → Except Error (List RStr × SparqlLexer)
  | 0, _, _ => .error ⟨.EmbeddingFuel, "fuel"⟩
  | fuel+1, acc, lx =>
    match SparqlLexer.peek_next_token lx with
    | (.ok (.SparqlVariable name), lx1) => varsLoop fuel (acc ++ [name]) (SparqlLexer.get_next_token lx1).2
    | (.ok _, lx1) => .ok (acc, lx1)
    | (.error e, lx1) =>
      match e.etype with
      | .EndOfInput _ => .ok (acc, lx1)
      | _ => .error ⟨.InvalidReaderInput, "Error while parsing SPARQL variables."⟩

/-- `SparqlParser::read_select_query`: optional DISTINCT/REDUCED, `'*'` or a
variable list, optional WHERE, then the mandatory group. -/
def read_select_query (fuel : Nat) (lx : SparqlLexer) :
    Except Error (SparqlQuery × SparqlLexer) :=
  let step2 : SparqlQueryType → SparqlLexer →
      Except Error ((SparqlQueryType × List RStr) × SparqlLexer) := fun qt lx1 =>
    match SparqlLexer.get_next_token lx1 with
    | (.ok .Asterisk, lx2) =>
      let qt2 := match qt with
        | .SelectDistinct => SparqlQueryType.SelectAllDistinct
        | .SelectReduced => SparqlQueryType.SelectAllReduced
        | _ => SparqlQueryType.SelectAll
      .ok ((qt2, ([] : List RStr)), lx2)
    | (.ok (.SparqlVariable name), lx2) =>
      match varsLoop fuel [name] lx2 with
      | .ok (vars, lx3) => .ok ((qt, vars), lx3)
      | .error e => .error e
    | (.ok _, _) => .error ⟨.InvalidToken, "Unexpected end while parsing SPARQL SELECT syntax."⟩
    | (.error e, _) => .error e
  let modifier : Except Error (SparqlQueryType × SparqlLexer) :=
    match SparqlLexer.peek_next_token lx with
    | (.ok .Reduced, lx1) =>
      .ok ((SparqlQueryType.SelectReduced, (SparqlLexer.get_next_token lx1).2))
    | (.ok .Distinct, lx1) =>
      .ok ((SparqlQueryType.SelectDistinct, (SparqlLexer.get_next_token lx1).2))
    | (.ok _, lx1) => .ok ((SparqlQueryType.Select, lx1))
    | (.error e, _) => .error e
  match modifier with
  | .error e => .error e
  | .ok (qt, lx1) =>
    match step2 qt lx1 with
    | .error e => .error e
    | .ok ((qt2, vars), lx2) =>
      let query := SparqlQuery.new qt2
      let whereStep : Except Error SparqlLexer :=
        match SparqlLexer.peek_next_token lx2 with
        | (.ok .Where, lx3) => .ok (SparqlLexer.get_next_token lx3).2
        | (.ok _, lx3) => .ok lx3
        | (.error e, _) => .error e
      match whereStep with
      | .error e => .error e
      | .ok lx4 =>
        match SparqlLexer.get_next_token lx4 with
        | (.ok .GroupStart, lx5) =>
          match parse_group_loop fuel query [] lx5 with
          | .ok (ps, lx6) =>
            let query2 := query.add_pattern (.group ps false false)
            .ok (query2.add_variables vars, lx6)
          | .error e => .error e
        | (.ok _, _) => .error ⟨.InvalidToken, "Unexpected token while parsing WHERE group"⟩
        | (.error e, _) => .error e

/-- Top-level loop of `SparqlParser::decode`: skip comments, require SELECT. -/
def decodeLoop : Nat → SparqlLexer → Except Error SparqlQuery
  | 0, _ => .error ⟨.EmbeddingFuel, "fuel"⟩
  | fuel+1, lx =>
    match SparqlLexer.peek_next_token lx with
    | (.ok (.Comment _), lx1) => decodeLoop fuel (SparqlLexer.get_next_token lx1).2
    | (.ok .Select, lx1) =>
      match read_select_query fuel (SparqlLexer.get_next_token lx1).2 with
      | .ok (q, _) => .ok q
      | .error e => .error e
    | (.ok _, _) => .error ⟨.InvalidToken, "Invalid token while parsing SPARQL syntax."⟩
    | (.error e, _) => .error e

/-- `SparqlParser::decode` over a byte stream. -/
def decode (bytes : List Nat) : Except Error SparqlQuery :=
  decodeLoop (bytes.length + 16) (SparqlLexer.new bytes)

end SparqlParser

/-- Lexicographic comparison of scalar lists: Rust's derived `Ord` on `String`
(byte order and scalar order agree on valid UTF-8). -/
def listCmpNat : List Nat → List Nat → Ordering
  | [], [] => .eq
  | [], _ :: _ => .lt
  | _ :: _, [] => .gt
  | a :: as_, b :: bs => if a < b then .lt else if b < a then .gt else listCmpNat as_ bs

/-- Rust's derived `Ord` on `Option`: `None < Some`. -/
def optionCmp (f : α → α → Ordering) : Option α → Option α → Ordering
  | none, none => .eq
  | none, some _ => .lt
  | some _, none => .gt
  | some a, some b => f a b

/-- Derived `Ord` on `Uri` (its string). -/
def uriCmp (a b : Uri) : Ordering := listCmpNat a.uri b.uri

/-- Derived `Ord` on `Node`: variant order `UriNode < LiteralNode < BlankNode`,
fields lexicographically. -/
def nodeCmp : Node → Node → Ordering
  | .UriNode a, .UriNode b => uriCmp a b
  | .UriNode _, _ => .lt
  | .LiteralNode _ _ _, .UriNode _ => .gt
  | .LiteralNode l1 d1 g1, .LiteralNode l2 d2 g2 =>
    match listCmpNat l1 l2 with
    | .eq =>
      match optionCmp uriCmp d1 d2 with
      | .eq => optionCmp listCmpNat g1 g2
      | o => o
    | o => o
  | .LiteralNode _ _ _, .BlankNode _ => .lt
  | .BlankNode _, .UriNode _ => .gt
  | .BlankNode _, .LiteralNode _ _ _ => .gt
  | .BlankNode a, .BlankNode b => listCmpNat a b

/-- Derived `Ord` on `Triple`: subject, then predicate, then object. -/
def tripleCmp (a b : Triple) : Ordering :=
  match nodeCmp a.subject b.subject with
  | .eq =>
    match nodeCmp a.predicate b.predicate with
    | .eq => nodeCmp a.object b.object
    | o => o
  | o => o

/-- The `≤` relation on triples that `Vec::sort` sorts by.  The derived order
is total and antisymmetric, so the stable `Vec::sort` and `insertionSort`
produce the same list. -/
def tripleLe (a b : Triple) : Prop := tripleCmp a b ≠ .gt

instance : DecidableRel tripleLe := fun a b => by unfold tripleLe; infer_instance

namespace TurtleSpecs

/-- `TurtleSpecs::is_plain_literal`: a literal printable without quotes for its
data type. -/
def is_plain_literal (lit : RStr) (dt : Option Uri) : Bool :=
  (is_double_literal lit && dt = some XmlDataTypes.Decimal.to_uri) ||
  (is_boolean_literal lit && dt = some XmlDataTypes.Boolean.to_uri) ||
  (is_integer_literal lit &&
    (dt = some XmlDataTypes.Integer.to_uri || dt = some XmlDataTypes.UnsignedLong.to_uri ||
     dt = some XmlDataTypes.Long.to_uri))

end TurtleSpecs

-- The `TurtleFormatter` of `turtle_formatter.rs`, as functions over its
-- namespace map (modelled as an association list, iterated in list order).
namespace TurtleFormatter

/-- `TurtleFormatter::format_uri`: QName form for the first namespace whose URI
is a prefix of the node's URI (namespace occurrences removed, `'/'` replaced by
`':'`), else angle brackets. -/
def format_uri (nss : List (RStr × Uri)) (u : Uri) : RStr :=
  match nss.find? (fun kv => kv.2.uri.isPrefixOf u.uri) with
  | some kv => kv.1 ++ [58] ++ replaceAll [47] [58] (replaceAll kv.2.uri [] u.uri)
  | none => [60] ++ u.uri ++ [62]

/-- `TurtleFormatter::format_blank`. -/
def format_blank (id : RStr) : RStr := [95, 58] ++ id

/-- `TurtleFormatter::format_literal`: plain literals print bare, others
quoted (via the no-op `escape_literal`), with `@lang` and `^^datatype`
suffixes. -/
def format_literal (nss : List (RStr × Uri)) (lit : RStr) (dt : Option Uri)
    (lang : Option RStr) : RStr :=
  let base :=
    if TurtleSpecs.is_plain_literal lit dt ∧ lang = none then lit
    else [34] ++ RdfSyntaxSpecs.escape_literal lit ++ [34]
  let base2 :=
    match lang with
    | some l => base ++ [64] ++ l
    | none => base
  match dt with
  | some d => base2 ++ [94, 94] ++ format_uri nss d
  | none => base2

/-- `TurtleFormatter::format_node`. -/
def format_node (nss : List (RStr × Uri)) : Node → RStr
  | .BlankNode id => format_blank id
  | .LiteralNode lit dt lang => format_literal nss lit dt lang
  | .UriNode u => format_uri nss u

end TurtleFormatter

/-- The `TurtleWriter` struct of `turtle_writer.rs` (it holds the formatter's
namespace map). -/
structure TurtleWriter where
  namespaces : List (RStr × Uri)

namespace TurtleWriter

/-- `TurtleWriter::node_to_turtle`: positional validity checks, then
formatting.  Every error this function produces is `InvalidWriterOutput`. -/
def node_to_turtle (w : TurtleWriter) (n : Node) (seg : TripleSegment) : Except Error RStr :=
  match n with
  | .BlankNode _ =>
    if seg = .Predicate then
      .error ⟨.InvalidWriterOutput, "Blank nodes are not allowed as predicates in Turtle."⟩
    else .ok (TurtleFormatter.format_node w.namespaces n)
  | .LiteralNode _ dt lang =>
    if seg ≠ .Object then
      .error ⟨.InvalidWriterOutput, "Literals are not allowed as subjects or predicates in Turtle."⟩
    else if lang ≠ none ∧ dt ≠ none then
      .error ⟨.InvalidWriterOutput, "Literal has data type and language."⟩
    else .ok (TurtleFormatter.format_node w.namespaces n)
  | .UriNode _ => .ok (TurtleFormatter.format_node w.namespaces n)

/-- `TurtleWriter::write_base_uri`. -/
def write_base_uri (w : TurtleWriter) (g : Graph) : RStr :=
  match g.base_uri with
  | some b => ascii "@base " ++ TurtleFormatter.format_uri w.namespaces b ++ ascii " .\n"
  | none => []

/-- `TurtleWriter::write_prefixes` (iterating the graph's namespace map in the
modelled association-list order). -/
def write_pfx_lines (g : Graph) : RStr :=
  g.namespaces.namespaces.foldl
    (fun acc kv => acc ++ ascii "@prefix " ++ kv.1 ++ ascii ": <" ++ kv.2.uri ++ ascii "> .\n") []

/-- The grouping loop of `TurtleWriter::write_to_string`, threading the output
and the previous subject/predicate with their indentation columns. -/
def writeLoop (w : TurtleWriter) : List Triple → RStr → Option Node → Option Node → Nat → Nat →
    Except Error RStr
  | [], out, _, _, _, _ => .ok out
  | t :: rest, out, prevS, prevP, predInd, objInd =>
    if prevS = some t.subject then
      if prevP = some t.predicate then
        let out1 := out ++ ascii " ,\n" ++ List.replicate objInd 32
        match node_to_turtle w t.object .Object with
        | .ok tobj => writeLoop w rest (out1 ++ tobj) prevS prevP predInd objInd
        | .error e => .error e
      else
        match node_to_turtle w t.predicate .Predicate with
        | .ok tpred =>
          let out1 := out ++ ascii " ;\n" ++ List.replicate predInd 32 ++ tpred ++ [32]
          let objInd2 := predInd + tpred.length + 1
          match node_to_turtle w t.object .Object with
          | .ok tobj =>
            writeLoop w rest (out1 ++ tobj) prevS (some t.predicate) predInd objInd2
          | .error e => .error e
        | .error e => .error e
    else
      let out0 := if prevS ≠ none then out ++ ascii " .\n" else out
      match node_to_turtle w t.subject .Subject with
      | .ok tsubj =>
        match node_to_turtle w t.predicate .Predicate with
        | .ok tpred =>
          let out1 := out0 ++ tsubj ++ [32] ++ tpred ++ [32]
          let predInd2 := tsubj.length + 1
          let objInd2 := predInd2 + tpred.length + 1
          match node_to_turtle w t.object .Object with
          | .ok tobj =>
            writeLoop w rest (out1 ++ tobj) (some t.subject) (some t.predicate) predInd2 objInd2
          | .error e => .error e
        | .error e => .error e
      | .error e => .error e

/-- `TurtleWriter::write_to_string`: base line, prefix lines, triples sorted by
the derived order and grouped by subject/predicate, final ` .` when the graph
is nonempty.  An `Err` return carries no output text. -/
def write_to_string (w : TurtleWriter) (g : Graph) : Except Error RStr :=
  let out0 := write_base_uri w g ++ write_pfx_lines g
  let sorted := g.triples.triples.insertionSort tripleLe
  match writeLoop w sorted out0 none none 0 0 with
  | .ok out => .ok (if !g.is_empty then out ++ ascii " ." else out)
  | .error e => .error e

end TurtleWriter

-- Spec-side definitions used to state the claims.

/-- Byte lists that are a proper, still-valid prefix of a multi-byte UTF-8
scalar encoding (one to three bytes of an incomplete scalar). -/
def isIncompleteUtf8 : List Nat → Bool
  | [b] => 194 ≤ b && b ≤ 244
  | [b0, b1] =>
    (b0 = 224 && 160 ≤ b1 && b1 ≤ 191) ||
    (225 ≤ b0 && b0 ≤ 236 && 128 ≤ b1 && b1 ≤ 191) ||
    (b0 = 237 && 128 ≤ b1 && b1 ≤ 159) ||
    (238 ≤ b0 && b0 ≤ 239 && 128 ≤ b1 && b1 ≤ 191) ||
    (b0 = 240 && 144 ≤ b1 && b1 ≤ 191) ||
    (241 ≤ b0 && b0 ≤ 243 && 128 ≤ b1 && b1 ≤ 191) ||
    (b0 = 244 && 128 ≤ b1 && b1 ≤ 143)
  | [b0, b1, b2] =>
    ((b0 = 240 && 144 ≤ b1 && b1 ≤ 191) ||
     (241 ≤ b0 && b0 ≤ 243 && 128 ≤ b1 && b1 ≤ 191) ||
     (b0 = 244 && 128 ≤ b1 && b1 ≤ 143)) &&
    (128 ≤ b2 && b2 ≤ 191)
  | _ => false

/-- Predicate nodes the Turtle writer must reject: blank nodes and literals. -/
def isBadPredNode : Node → Bool
  | .BlankNode _ => true
  | .LiteralNode _ _ _ => true
  | .UriNode _ => false

/-- ASCII blank-node labels free of the lexer's node delimiters, so that
`_:id` lexes back to exactly `id`. -/
def validBlankId (id : RStr) : Bool :=
  id.all (fun c => c < 128 && !(InputReaderHelper.node_delimiter c))

/-- ASCII URI strings free of `'>'`, so that `<u>` lexes back to exactly `u`. -/
def validUriChars (u : RStr) : Bool := u.all (fun c => c < 128 && c ≠ 62)

/-- The node `rdf:nil`. -/
def listNilNode : Node := .UriNode RdfSyntaxDataTypes.ListNil.to_uri

/-- The node `rdf:first`. -/
def listFirstNode : Node := .UriNode RdfSyntaxDataTypes.ListFirst.to_uri

/-- The node `rdf:rest`. -/
def listRestNode : Node := .UriNode RdfSyntaxDataTypes.ListRest.to_uri

/-- The `k`-th automatically minted blank node, `_:auto{k}`. -/
def autoNode (k : Nat) : Node := .BlankNode (ascii "auto" ++ natDec k)

/-- Triples a non-empty Turtle collection desugars to, following the spec's
words: per element, an `rdf:first` triple from that element's blank node to the
element and an `rdf:rest` triple to the next element's blank node, `rdf:nil`
for the last.  `subj` is the current element's blank node and `k` the counter
value minting the next one. -/
def specCollTriples : Node → Nat → List RStr → List Triple
  | _, _, [] => []
  | subj, _, [e] =>
    [⟨subj, listFirstNode, .BlankNode e⟩, ⟨subj, listRestNode, listNilNode⟩]
  | subj, k, e :: es =>
    ⟨subj, listFirstNode, .BlankNode e⟩ :: ⟨subj, listRestNode, autoNode k⟩ ::
      specCollTriples (autoNode k) (k + 1) es

/-- The Turtle statement `_:a _:b ( …els… ) .` as a byte list. -/
def collRender (els : List RStr) : List Nat :=
  ascii "_:a _:b (" ++ els.flatMap (fun id => [32, 95, 58] ++ id) ++ ascii " ) ."

/-- The graph `TurtleParser::decode` is expected to produce for
`collRender els`: the collection's desugaring triples followed by the statement
triple, with the blank-node counter advanced once per element plus once for
the subject of the chain. -/
def collGraphSpec (els : List RStr) : Graph :=
  match els with
  | [] => ⟨none, ⟨[⟨.BlankNode [97], .BlankNode [98], listNilNode⟩]⟩, ⟨[]⟩, 0⟩
  | _ =>
    ⟨none,
     ⟨specCollTriples (autoNode 0) 1 els ++ [⟨.BlankNode [97], .BlankNode [98], autoNode 0⟩]⟩,
     ⟨[]⟩, els.length + 1⟩

/-- Residual collection input after the opening parenthesis and the first
element token: remaining elements, each as `_:id` plus its trailing space,
then `)` and the tail. -/
def collEntryInput (els : List RStr) (tail : List Nat) : List Nat :=
  els.flatMap (fun id => [95, 58] ++ id ++ [32]) ++ 41 :: tail

/-- The single-triple graph used for the round-trip statement: blank subject,
URI predicate, blank object, no base URI and no namespaces. -/
def singleTripleGraph (s u o : RStr) : Graph :=
  ⟨none, ⟨[⟨.BlankNode s, .UriNode ⟨u⟩, .BlankNode o⟩]⟩, ⟨[]⟩, 0⟩

/-- Numeric value of a decimal-digit string (inverse of `natDec`). -/
def decVal (s : RStr) : Nat := s.foldl (fun a d => a * 10 + (d - 48)) 0

-- Theorems.  First the store claims, then the reader claims, then the writer
-- claim, then the parser claims.

theorem filter_ne_length (l : List Triple) (t : Triple) :
    (l.filter (fun x => x ≠ t)).length = l.length - l.count t := by
  induction l with
  | nil => simp
  | cons a l ih =>
    have hc : l.count t ≤ l.length := List.count_le_length t l
    simp only [ne_eq, decide_not] at ih ⊢
    by_cases h : a = t
    · subst h
      simp [List.filter_cons, List.count_cons, ih]
    · simp [List.filter_cons, List.count_cons, h, ih]
      omega

theorem count_filter_ne (l : List Triple) (t u : Triple) (h : u ≠ t) :
    (l.filter (fun x => x ≠ t)).count u = l.count u := by
  induction l with
  | nil => simp
  | cons a l ih =>
    simp only [ne_eq, decide_not] at ih ⊢
    by_cases ha : a = t
    · subst ha
      simp [List.filter_cons, List.count_cons, Ne.symm h, ih]
    · simp [List.filter_cons, List.count_cons, ha, ih]

/-- C8: `TripleStore.remove_triple` removes every stored triple structurally
equal to its argument, not just one occurrence: the count drops by exactly the
number of equal copies, no equal triple remains, the survivors keep their
relative insertion order (the result is a sublist of the original), and every
other triple keeps its multiplicity. -/
theorem C8_remove_triple_removes_all (s : TripleStore) (t : Triple) :
    (s.remove_triple t).count = s.count - s.triples.count t ∧
    (∀ x ∈ (s.remove_triple t).triples, x ≠ t) ∧
    (s.remove_triple t).triples.Sublist s.triples ∧
    ∀ u : Triple, u ≠ t → (s.remove_triple t).triples.count u = s.triples.count u := by
  refine ⟨filter_ne_length s.triples t, ?_, List.filter_sublist s.triples,
    fun u hu => count_filter_ne s.triples t u hu⟩
  intro x hx
  have := List.of_mem_filter hx
  simpa using this

/-- C8 witness: a store with two copies of a triple and one other triple, at
which the preserved-multiplicity part of the claim is instantiated. -/
theorem C8_witness :
    (TripleStore.remove_triple
        ⟨[⟨.BlankNode [97], .BlankNode [98], .BlankNode [99]⟩,
          ⟨.BlankNode [100], .BlankNode [98], .BlankNode [99]⟩,
          ⟨.BlankNode [97], .BlankNode [98], .BlankNode [99]⟩]⟩
        ⟨.BlankNode [97], .BlankNode [98], .BlankNode [99]⟩).triples.count
      ⟨.BlankNode [100], .BlankNode [98], .BlankNode [99]⟩ =
    List.count (⟨.BlankNode [100], .BlankNode [98], .BlankNode [99]⟩ : Triple)
      [⟨.BlankNode [97], .BlankNode [98], .BlankNode [99]⟩,
       ⟨.BlankNode [100], .BlankNode [98], .BlankNode [99]⟩,
       ⟨.BlankNode [97], .BlankNode [98], .BlankNode [99]⟩] :=
  (C8_remove_triple_removes_all _ _).2.2.2 _ (by decide)

theorem utf8Decode1_one_none (b : Nat) (h : 128 ≤ b) : InputReader.utf8Decode1 [b] = none := by
  simp only [InputReader.utf8Decode1]
  rw [if_neg (by omega)]

theorem utf8Decode1_two_none (b0 b1 : Nat) (h : 224 ≤ b0) :
    InputReader.utf8Decode1 [b0, b1] = none := by
  simp only [InputReader.utf8Decode1]
  rw [if_neg (by omega)]

theorem utf8Decode1_three_none (b0 b1 b2 : Nat) (h : 240 ≤ b0) :
    InputReader.utf8Decode1 [b0, b1, b2] = none := by
  simp only [InputReader.utf8Decode1]
  rw [if_neg (by omega)]

/-- C10: when the byte stream ends in the middle of a multi-byte UTF-8
sequence (one to three bytes of an incomplete scalar), `get_next_char` returns
`Ok(None)` — not an `InvalidByteEncoding` error — silently dropping the partial
bytes. -/
theorem C10_incomplete_utf8_is_silent_eof (bytes : List Nat)
    (h : isIncompleteUtf8 bytes = true) :
    InputReader.get_next_char ⟨bytes, []⟩ = (.ok none, ⟨[], []⟩) := by
  match bytes, h with
  | [b], h =>
    simp only [isIncompleteUtf8, Bool.and_eq_true, decide_eq_true_eq] at h
    simp [InputReader.get_next_char, InputReader.getNextCharLoop,
      utf8Decode1_one_none b (by omega)]
  | [b0, b1], h =>
    simp only [isIncompleteUtf8, Bool.or_eq_true, Bool.and_eq_true, decide_eq_true_eq] at h
    simp [InputReader.get_next_char, InputReader.getNextCharLoop,
      utf8Decode1_one_none b0 (by omega), utf8Decode1_two_none b0 b1 (by omega)]
  | [b0, b1, b2], h =>
    simp only [isIncompleteUtf8, Bool.or_eq_true, Bool.and_eq_true, decide_eq_true_eq] at h
    simp [InputReader.get_next_char, InputReader.getNextCharLoop,
      utf8Decode1_one_none b0 (by omega), utf8Decode1_two_none b0 b1 (by omega),
      utf8Decode1_three_none b0 b1 b2 (by omega)]

/-- C10 witness: the first three bytes of a four-byte scalar. -/
theorem C10_witness : InputReader.get_next_char ⟨[240, 159, 145], []⟩ = (.ok none, ⟨[], []⟩) :=
  C10_incomplete_utf8_is_silent_eof [240, 159, 145] (by decide)

theorem get_k_length : ∀ (k : Nat) (r : InputReader) (v : InputChars) (r' : InputReader),
    InputReader.get_next_k_chars k r = (.ok v, r') → v.length = k := by
  intro k
  induction k with
  | zero =>
    intro r v r' h
    simp only [InputReader.get_next_k_chars] at h
    cases h
    rfl
  | succ k ih =>
    intro r v r' h
    simp only [InputReader.get_next_k_chars] at h
    split at h
    · split at h
      · rename_i heq2
        cases h
        simp only [List.length_cons]
        rw [ih _ _ _ heq2]
      · cases h
    · cases h

theorem peek_k_idem (r : InputReader) (k : Nat) (v : InputChars) (r' : InputReader)
    (h : InputReader.peek_next_k_chars r k = (.ok v, r')) :
    InputReader.peek_next_k_chars r' k = (.ok v, r') := by
  unfold InputReader.peek_next_k_chars at h
  by_cases hle : k ≤ r.peeked_chars.length
  · rw [if_pos hle] at h
    cases h
    unfold InputReader.peek_next_k_chars
    rw [if_pos hle]
  · rw [if_neg hle] at h
    split at h
    · rename_i heq
      cases h
      have hlen := get_k_length k r _ _ heq
      unfold InputReader.peek_next_k_chars
      rw [if_pos (le_of_eq hlen.symm), List.take_of_length_le (le_of_eq hlen)]
    · cases h

theorem peek_then_get (r : InputReader) (c : Nat) (r' : InputReader)
    (h : InputReader.peek_next_char r = (.ok (some c), r')) :
    (InputReader.get_next_char r').1 = .ok (some c) := by
  unfold InputReader.peek_next_char at h
  split at h
  · rename_i cs r1 heq
    simp only [Prod.mk.injEq, Except.ok.injEq] at h
    obtain ⟨he, hs⟩ := h
    subst hs
    unfold InputReader.peek_next_k_chars at heq
    by_cases hle : 1 ≤ r.peeked_chars.length
    · rw [if_pos hle] at heq
      simp only [Prod.mk.injEq, Except.ok.injEq] at heq
      obtain ⟨hcs, hr⟩ := heq
      subst hr
      match r, hle, hcs with
      | ⟨input, x :: rest⟩, _, hcs =>
        simp only [List.take_succ_cons, List.take_zero] at hcs
        subst hcs
        simp only [List.getD_cons_zero] at he
        simp [InputReader.get_next_char, he]
    · rw [if_neg hle] at heq
      split at heq
      · rename_i cs2 r2 heq2
        simp only [Prod.mk.injEq, Except.ok.injEq] at heq
        obtain ⟨hcs, hr⟩ := heq
        rw [← hcs] at he
        rw [← hr]
        have hlen := get_k_length 1 r _ _ heq2
        match cs2, hlen, he with
        | [x], _, he =>
          simp only [List.getD_cons_zero] at he
          simp [InputReader.get_next_char, he]
      · cases heq
  · cases h

theorem get_next_char_peeked_le_one (r : InputReader) (h : r.peeked_chars.length ≤ 1) :
    (InputReader.get_next_char r).2.peeked_chars = [] := by
  match r, h with
  | ⟨input, []⟩, _ => simp [InputReader.get_next_char]
  | ⟨input, [x]⟩, _ => simp [InputReader.get_next_char]

theorem get_dls_aux_empties : ∀ (fuel : Nat) (r : InputReader) (c : Nat) (r1 : InputReader),
    r.peeked_chars.length ≤ 1 →
    InputReader.get_next_char_dls_aux fuel r = (.ok (some c), r1) → r1.peeked_chars = [] := by
  intro fuel
  induction fuel with
  | zero =>
    intro r c r1 _ h
    simp [InputReader.get_next_char_dls_aux] at h
  | succ fuel ih =>
    intro r c r1 hlen h
    simp only [InputReader.get_next_char_dls_aux] at h
    split at h
    · rename_i c2 r2 heq
      have hr2 : r2.peeked_chars = [] := by
        have := get_next_char_peeked_le_one r hlen
        rw [heq] at this
        exact this
      split at h
      · exact ih r2 c r1 (by simp [hr2]) h
      · cases h
        exact hr2
    · cases h
    · cases h

theorem peek_dls_then_get (r : InputReader) (c : Nat) (r' : InputReader)
    (hlen : r.peeked_chars.length ≤ 1)
    (h : InputReader.peek_next_char_discard_leading_spaces r = (.ok (some c), r')) :
    (InputReader.get_next_char r').1 = .ok (some c) := by
  unfold InputReader.peek_next_char_discard_leading_spaces at h
  split at h
  · rename_i c2 r1 heq
    have hr1 : r1.peeked_chars = [] :=
      get_dls_aux_empties _ r c2 r1 hlen heq
    rw [if_pos (by simp [hr1])] at h
    cases h
    simp [InputReader.get_next_char]
  · cases h
  · cases h

/-- C4 (amended): repeated `peek_next_k_chars` agree with each other, and after
`peek_next_char` returns a scalar the next `get_next_char` returns that same
scalar; the whitespace-skipping peek has this property only when at most one
scalar is buffered — with two or more buffered scalars it consumes the scalar
it reports (see the counterexample). -/
theorem C4_amended :
    (∀ (r : InputReader) (k : Nat) (v : InputChars) (r' : InputReader),
      InputReader.peek_next_k_chars r k = (.ok v, r') →
      InputReader.peek_next_k_chars r' k = (.ok v, r')) ∧
    (∀ (r : InputReader) (c : Nat) (r' : InputReader),
      InputReader.peek_next_char r = (.ok (some c), r') →
      (InputReader.get_next_char r').1 = .ok (some c)) ∧
    (∀ (r : InputReader) (c : Nat) (r' : InputReader),
      r.peeked_chars.length ≤ 1 →
      InputReader.peek_next_char_discard_leading_spaces r = (.ok (some c), r') →
      (InputReader.get_next_char r').1 = .ok (some c)) :=
  ⟨peek_k_idem, peek_then_get, peek_dls_then_get⟩

/-- C4 counterexample: after `peek_next_k_chars 2` buffers two scalars on input
`"ab"`, `peek_next_char_discard_leading_spaces` returns `'a'` but consumes it,
so the next `get_next_char` returns `'b'`, not the peeked `'a'`. -/
theorem C4_counterexample :
    InputReader.peek_next_k_chars ⟨[97, 98], []⟩ 2 =
      (.ok [some 97, some 98], ⟨[], [some 97, some 98]⟩) ∧
    InputReader.peek_next_char_discard_leading_spaces ⟨[], [some 97, some 98]⟩ =
      (.ok (some 97), ⟨[], [some 98]⟩) ∧
    InputReader.get_next_char ⟨[], [some 98]⟩ = (.ok (some 98), ⟨[], []⟩) ∧
    (some 98 : Option Nat) ≠ some 97 :=
  ⟨rfl, rfl, rfl, by decide⟩

/-- C4 witness: the single-scalar-buffer instance of the amended claim. -/
theorem C4_witness : (InputReader.get_next_char ⟨[], [some 97]⟩).1 = .ok (some 97) :=
  C4_amended.2.2 ⟨[97], []⟩ 97 ⟨[], [some 97]⟩ (by decide) rfl


theorem node_to_turtle_error_type (w : TurtleWriter) (n : Node) (seg : TripleSegment)
    (e : Error) (h : TurtleWriter.node_to_turtle w n seg = .error e) :
    e.etype = .InvalidWriterOutput := by
  unfold TurtleWriter.node_to_turtle at h
  split at h
  · split at h
    · cases h; rfl
    · cases h
  · split at h
    · cases h; rfl
    · split at h
      · cases h; rfl
      · cases h
  · cases h

theorem node_to_turtle_bad_pred (w : TurtleWriter) (n : Node)
    (h : isBadPredNode n = true) :
    ∃ e, TurtleWriter.node_to_turtle w n .Predicate = .error e := by
  match n, h with
  | .BlankNode id, _ =>
    exact ⟨⟨.InvalidWriterOutput, "Blank nodes are not allowed as predicates in Turtle."⟩,
      by simp [TurtleWriter.node_to_turtle]⟩
  | .LiteralNode l d la, _ =>
    refine ⟨⟨.InvalidWriterOutput, "Literals are not allowed as subjects or predicates in Turtle."⟩, ?_⟩
    simp only [TurtleWriter.node_to_turtle]
    rw [if_pos (by decide)]

theorem writeLoop_error_type (w : TurtleWriter) :
    ∀ (l : List Triple) (out : RStr) (prevS prevP : Option Node) (pi oi : Nat) (e : Error),
    TurtleWriter.writeLoop w l out prevS prevP pi oi = .error e →
    e.etype = .InvalidWriterOutput := by
  intro l
  induction l with
  | nil =>
    intro out prevS prevP pi oi e h
    simp [TurtleWriter.writeLoop] at h
  | cons t rest ih =>
    intro out prevS prevP pi oi e h
    simp only [TurtleWriter.writeLoop] at h
    repeat' split at h
    all_goals first
      | exact ih _ _ _ _ _ _ h
      | (cases h; exact node_to_turtle_error_type _ _ _ _ (by assumption))

theorem writeLoop_bad_pred_errors (w : TurtleWriter) :
    ∀ (l : List Triple) (out : RStr) (prevS prevP : Option Node) (pi oi : Nat),
    (prevP = none ∨ ∃ p s, prevP = some p ∧ TurtleWriter.node_to_turtle w p .Predicate = .ok s) →
    (∃ t ∈ l, isBadPredNode t.predicate = true) →
    ∃ e, TurtleWriter.writeLoop w l out prevS prevP pi oi = .error e := by
  intro l
  induction l with
  | nil =>
    rintro out prevS prevP pi oi _ ⟨t, ht, _⟩
    cases ht
  | cons t rest ih =>
    rintro out prevS prevP pi oi hinv hbad
    simp only [TurtleWriter.writeLoop]
    by_cases hS : prevS = some t.subject
    · rw [if_pos hS]
      by_cases hP : prevP = some t.predicate
      · rw [if_pos hP]
        have hgood : ∃ s, TurtleWriter.node_to_turtle w t.predicate .Predicate = .ok s := by
          rcases hinv with h0 | ⟨p, s, hp, hps⟩
          · rw [h0] at hP; cases hP
          · rw [hp] at hP
            cases hP
            exact ⟨s, hps⟩
        have hbad' : ∃ t' ∈ rest, isBadPredNode t'.predicate = true := by
          rcases hbad with ⟨t', ht', hb⟩
          rcases List.mem_cons.mp ht' with heq | hmem
          · subst heq
            obtain ⟨ebad, hebad⟩ := node_to_turtle_bad_pred w t'.predicate hb
            rcases hgood with ⟨s, hs⟩
            rw [hs] at hebad
            cases hebad
          · exact ⟨t', hmem, hb⟩
        cases hobj : TurtleWriter.node_to_turtle w t.object .Object with
        | ok tobj => exact ih _ _ _ _ _ hinv hbad'
        | error e2 => exact ⟨e2, rfl⟩
      · rw [if_neg hP]
        cases hpred : TurtleWriter.node_to_turtle w t.predicate .Predicate with
        | ok tpred =>
          have hinv' : (some t.predicate : Option Node) = none ∨
              ∃ p s, (some t.predicate : Option Node) = some p ∧
                TurtleWriter.node_to_turtle w p .Predicate = .ok s :=
            Or.inr ⟨t.predicate, tpred, rfl, hpred⟩
          have hbad' : ∃ t' ∈ rest, isBadPredNode t'.predicate = true := by
            rcases hbad with ⟨t', ht', hb⟩
            rcases List.mem_cons.mp ht' with heq | hmem
            · subst heq
              obtain ⟨ebad, hebad⟩ := node_to_turtle_bad_pred w t'.predicate hb
              rw [hpred] at hebad
              cases hebad
            · exact ⟨t', hmem, hb⟩
          cases hobj : TurtleWriter.node_to_turtle w t.object .Object with
          | ok tobj => exact ih _ _ _ _ _ hinv' hbad'
          | error e2 => exact ⟨e2, rfl⟩
        | error e2 => exact ⟨e2, rfl⟩
    · rw [if_neg hS]
      cases hsub : TurtleWriter.node_to_turtle w t.subject .Subject with
      | ok tsubj =>
        cases hpred : TurtleWriter.node_to_turtle w t.predicate .Predicate with
        | ok tpred =>
          have hinv' : (some t.predicate : Option Node) = none ∨
              ∃ p s, (some t.predicate : Option Node) = some p ∧
                TurtleWriter.node_to_turtle w p .Predicate = .ok s :=
            Or.inr ⟨t.predicate, tpred, rfl, hpred⟩
          have hbad' : ∃ t' ∈ rest, isBadPredNode t'.predicate = true := by
            rcases hbad with ⟨t', ht', hb⟩
            rcases List.mem_cons.mp ht' with heq | hmem
            · subst heq
              obtain ⟨ebad, hebad⟩ := node_to_turtle_bad_pred w t'.predicate hb
              rw [hpred] at hebad
              cases hebad
            · exact ⟨t', hmem, hb⟩
          cases hobj : TurtleWriter.node_to_turtle w t.object .Object with
          | ok tobj => exact ih _ _ _ _ _ hinv' hbad'
          | error e2 => exact ⟨e2, rfl⟩
        | error e2 => exact ⟨e2, rfl⟩
      | error e2 => exact ⟨e2, rfl⟩

/-- C7: for every graph containing a triple whose predicate node is a
`BlankNode` or a `LiteralNode`, `TurtleWriter.write_to_string` returns an error
of type `InvalidWriterOutput`; the `Err` result carries no output text, so the
call fails atomically with no partial serialization. -/
theorem C7_bad_predicate_write_fails (w : TurtleWriter) (g : Graph)
    (h : ∃ t ∈ g.triples.triples, isBadPredNode t.predicate = true) :
    ∃ e, TurtleWriter.write_to_string w g = .error e ∧ e.etype = .InvalidWriterOutput := by
  have hbad : ∃ t ∈ g.triples.triples.insertionSort tripleLe, isBadPredNode t.predicate = true := by
    rcases h with ⟨t, ht, hb⟩
    exact ⟨t, (List.mem_insertionSort tripleLe).mpr ht, hb⟩
  obtain ⟨e, he⟩ := writeLoop_bad_pred_errors w _
    (TurtleWriter.write_base_uri w g ++ TurtleWriter.write_pfx_lines g) none none 0 0
    (Or.inl rfl) hbad
  refine ⟨e, ?_, writeLoop_error_type w _ _ _ _ _ _ e he⟩
  unfold TurtleWriter.write_to_string
  simp only [he]

/-- C1: evaluating `TurtleParser.decode` on `_:s _:p1 _:o1 ; _:p2 _:o2 , _:o3 .`
shows the triple produced for `o3` is `(s, p1, o3)` — the statement's FIRST
predicate — not `(s, p2, o3)` as the claim (and standard Turtle) requires: the
`';'` arm of `read_predicate_object_list` rebinds `predicate` only inside its
own arm, so the `','` arm still sees the outer binding. -/
theorem C1_comma_uses_first_predicate :
    TurtleParser.decode (ascii "_:s _:p1 _:o1 ; _:p2 _:o2 , _:o3 .") =
      .ok ⟨none,
        ⟨[⟨.BlankNode [115], .BlankNode [112, 49], .BlankNode [111, 49]⟩,
          ⟨.BlankNode [115], .BlankNode [112, 50], .BlankNode [111, 50]⟩,
          ⟨.BlankNode [115], .BlankNode [112, 49], .BlankNode [111, 51]⟩]⟩,
        ⟨[]⟩, 0⟩ ∧
    Node.BlankNode [112, 49] ≠ Node.BlankNode [112, 50] :=
  ⟨rfl, by decide⟩

/-- C5 counterexample: the input `_:a` ends in the middle of a statement (after
the subject), yet `decode` fails with `InvalidToken` — not `InvalidReaderInput`
as the claim states. -/
theorem C5_counterexample :
    TurtleParser.decode (ascii "_:a") =
      .error ⟨.InvalidToken, "Invalid token for Turtle predicate."⟩ ∧
    ErrorType.InvalidToken ≠ ErrorType.InvalidReaderInput :=
  ⟨rfl, by decide⟩

/-- C5 (amended): at a top-level statement boundary (empty input, a complete
statement, or a complete statement plus trailing whitespace) `decode` returns
`Ok` with the graph accumulated so far; when the input ends mid-statement the
failure is not uniformly `InvalidReaderInput`: after a complete token it is
`InvalidToken` (`_:a`), inside the `_` of a blank label it is
`InvalidReaderInput` (`_`), and inside the first token of a new statement the
lexer's `EndOfInput` makes `decode` return `Ok` with the triples parsed so far
(`_:a _:b _:c . <ht`). -/
theorem C5_amended :
    TurtleParser.decode (ascii "") = .ok (Graph.new none) ∧
    TurtleParser.decode (ascii "_:a _:b _:c .") =
      .ok ⟨none, ⟨[⟨.BlankNode [97], .BlankNode [98], .BlankNode [99]⟩]⟩, ⟨[]⟩, 0⟩ ∧
    TurtleParser.decode (ascii "_:a _:b _:c .   ") =
      .ok ⟨none, ⟨[⟨.BlankNode [97], .BlankNode [98], .BlankNode [99]⟩]⟩, ⟨[]⟩, 0⟩ ∧
    TurtleParser.decode (ascii "_:a") =
      .error ⟨.InvalidToken, "Invalid token for Turtle predicate."⟩ ∧
    TurtleParser.decode (ascii "_") =
      .error ⟨.InvalidReaderInput, "Error while parsing Turtle syntax."⟩ ∧
    TurtleParser.decode (ascii "_:a _:b _:c . <ht") =
      .ok ⟨none, ⟨[⟨.BlankNode [97], .BlankNode [98], .BlankNode [99]⟩]⟩, ⟨[]⟩, 0⟩ :=
  ⟨rfl, rfl, rfl, rfl, rfl, rfl⟩

/-- C6: `SparqlParser.decode` on `SELECT ?a ?b WHERE { ?v ?p 123 }` yields a
Select query, projected variables exactly `["a", "b"]` in order, and a root
group holding exactly one `TriplePattern` with variable subject `v`, variable
predicate `p`, and a fixed numeric-literal object `123` (typed
`xsd:integer`). -/
theorem C6_sparql_select :
    SparqlParser.decode (ascii "SELECT ?a ?b WHERE { ?v ?p 123 }") =
      .ok ⟨.Select, none, ⟨[]⟩, [[97], [98]],
        [.group [.triple (.VariableNode [118]) (.VariableNode [112])
          (.FixedNode (.LiteralNode [49, 50, 51]
            (some ⟨ascii "http://www.w3.org/2001/XMLSchema#integer"⟩) none))
          false false] false false]⟩ :=
  rfl

/-- C7 witness: a single triple with a blank-node predicate. -/
theorem C7_witness :
    ∃ e, TurtleWriter.write_to_string ⟨[]⟩
        ⟨none, ⟨[⟨.BlankNode [97], .BlankNode [98], .BlankNode [99]⟩]⟩, ⟨[]⟩, 0⟩ = .error e ∧
      e.etype = .InvalidWriterOutput :=
  C7_bad_predicate_write_fails ⟨[]⟩ _
    ⟨⟨.BlankNode [97], .BlankNode [98], .BlankNode [99]⟩, by decide, by decide⟩


-- Reader-level evaluation lemmas shared by the collection and round-trip
-- developments.

namespace InputReader

/-- A single ASCII byte pops directly off the stream. -/
theorem get_next_char_ascii (b : Nat) (I : List Nat) (hb : b < 128) :
    get_next_char ⟨b :: I, []⟩ = (.ok (some b), ⟨I, []⟩) := by
  simp [get_next_char, getNextCharLoop, utf8Decode1, hb]

/-- A buffered scalar pops off the pushback buffer. -/
theorem get_next_char_bufd (I : List Nat) (c : Option Nat) (P : InputChars) :
    get_next_char ⟨I, c :: P⟩ = (.ok c, ⟨I, P⟩) := rfl

/-- The whitespace-skipping loop drops a buffered space. -/
theorem dls_aux_skip_bufd (fuel : Nat) (I : List Nat) (P : InputChars) :
    get_next_char_dls_aux (fuel + 1) ⟨I, some 32 :: P⟩ = get_next_char_dls_aux fuel ⟨I, P⟩ := by
  simp [get_next_char_dls_aux, get_next_char_bufd]

/-- The whitespace-skipping loop drops a leading space of the stream. -/
theorem dls_aux_skip_in (fuel : Nat) (I : List Nat) :
    get_next_char_dls_aux (fuel + 1) ⟨32 :: I, []⟩ = get_next_char_dls_aux fuel ⟨I, []⟩ := by
  simp [get_next_char_dls_aux, get_next_char_ascii 32 I (by omega)]

/-- The whitespace-skipping loop stops at a non-whitespace ASCII byte. -/
theorem dls_aux_stop (fuel : Nat) (b : Nat) (I : List Nat) (hb : b < 128)
    (hw : ¬(b = 32 ∨ b = 10 ∨ b = 9 ∨ b = 13)) :
    get_next_char_dls_aux (fuel + 1) ⟨b :: I, []⟩ = (.ok (some b), ⟨I, []⟩) := by
  simp [get_next_char_dls_aux, get_next_char_ascii b I hb, hw]

/-- The whitespace-skipping peek at a non-whitespace ASCII head: the scalar is
read and pushed back. -/
theorem peek_dls_top (b : Nat) (I : List Nat) (hb : b < 128)
    (hw : ¬(b = 32 ∨ b = 10 ∨ b = 9 ∨ b = 13)) :
    peek_next_char_discard_leading_spaces ⟨b :: I, []⟩ = (.ok (some b), ⟨I, [some b]⟩) := by
  have h : get_next_char_discard_leading_spaces ⟨b :: I, []⟩ = (.ok (some b), ⟨I, []⟩) := by
    show get_next_char_dls_aux (size ⟨b :: I, []⟩ + 1) ⟨b :: I, []⟩ = _
    have hs : size ⟨b :: I, []⟩ + 1 = (I.length + 1) + 1 := by simp [size]
    rw [hs, dls_aux_stop (I.length + 1) b I hb hw]
  simp [peek_next_char_discard_leading_spaces, h]

/-- The whitespace-skipping peek with one buffered space before a
non-whitespace ASCII head. -/
theorem peek_dls_bufd (b : Nat) (I : List Nat) (hb : b < 128)
    (hw : ¬(b = 32 ∨ b = 10 ∨ b = 9 ∨ b = 13)) :
    peek_next_char_discard_leading_spaces ⟨b :: I, [some 32]⟩ =
      (.ok (some b), ⟨I, [some b]⟩) := by
  have h : get_next_char_discard_leading_spaces ⟨b :: I, [some 32]⟩ = (.ok (some b), ⟨I, []⟩) := by
    show get_next_char_dls_aux (size ⟨b :: I, [some 32]⟩ + 1) ⟨b :: I, [some 32]⟩ = _
    have hs : size ⟨b :: I, [some 32]⟩ + 1 = ((I.length + 1) + 1) + 1 := by simp [size]
    rw [hs, dls_aux_skip_bufd, dls_aux_stop (I.length + 1) b I hb hw]
  simp [peek_next_char_discard_leading_spaces, h]

/-- The whitespace-skipping peek over one leading space of the stream. -/
theorem peek_dls_sp (b : Nat) (I : List Nat) (hb : b < 128)
    (hw : ¬(b = 32 ∨ b = 10 ∨ b = 9 ∨ b = 13)) :
    peek_next_char_discard_leading_spaces ⟨32 :: b :: I, []⟩ =
      (.ok (some b), ⟨I, [some b]⟩) := by
  have h : get_next_char_discard_leading_spaces ⟨32 :: b :: I, []⟩ =
      (.ok (some b), ⟨I, []⟩) := by
    show get_next_char_dls_aux (size ⟨32 :: b :: I, []⟩ + 1) ⟨32 :: b :: I, []⟩ = _
    have hs : size ⟨32 :: b :: I, []⟩ + 1 = ((I.length + 1) + 1) + 1 := by simp [size]
    rw [hs, dls_aux_skip_in, dls_aux_stop (I.length + 1) b I hb hw]
  simp [peek_next_char_discard_leading_spaces, h]

/-- Running `get_until` over ASCII non-delimiter bytes up to an ASCII
delimiter, with fuel. -/
theorem get_until_aux_run (p : Nat → Bool) (cs : List Nat) :
    ∀ (fuel : Nat) (buf : InputChars) (d : Nat) (rest : List Nat),
      cs.length + 1 ≤ fuel →
      (∀ c ∈ cs, c < 128 ∧ p c = false) →
      p d = true → d < 128 →
      get_until_aux p fuel ⟨cs ++ d :: rest, []⟩ buf =
        (.ok (buf ++ cs.map some), ⟨rest, [some d]⟩) := by
  induction cs with
  | nil =>
    intro fuel buf d rest hf _ hp hd
    obtain ⟨f, rfl⟩ : ∃ f, fuel = f + 1 := ⟨fuel - 1, by omega⟩
    simp [get_until_aux, get_next_char_ascii d rest hd, hp]
  | cons c cs ih =>
    intro fuel buf d rest hf hv hp hd
    obtain ⟨f, rfl⟩ : ∃ f, fuel = f + 1 := ⟨fuel - 1, by omega⟩
    have hc := hv c (List.mem_cons_self c cs)
    have hrec := ih f (buf ++ [some c]) d rest (by simp at hf; omega)
      (fun x hx => hv x (List.mem_cons_of_mem c hx)) hp hd
    simp [get_until_aux, get_next_char_ascii c (cs ++ d :: rest) hc.1, hc.2, hrec]

/-- `get_until` over ASCII non-delimiter bytes up to an ASCII delimiter. -/
theorem get_until_run (p : Nat → Bool) (cs : List Nat) (d : Nat) (rest : List Nat)
    (hv : ∀ c ∈ cs, c < 128 ∧ p c = false) (hp : p d = true) (hd : d < 128) :
    get_until p ⟨cs ++ d :: rest, []⟩ = (.ok (cs.map some), ⟨rest, [some d]⟩) := by
  have h := get_until_aux_run p cs (size ⟨cs ++ d :: rest, []⟩ + 1) [] d rest
    (by simp [size]) hv hp hd
  simpa [get_until] using h

/-- Mapping `some` and flattening back is the identity. -/
theorem toStr_map_some (cs : List Nat) : InputChars.toStr (cs.map some) = cs := by
  simp [InputChars.toStr]

end InputReader


-- Token-level evaluation lemmas for the Turtle lexer on blank-node labels,
-- URIs and punctuation, as they occur in collection statements.

/-- Unpacking `validBlankId`: every label byte is ASCII and no node delimiter. -/
theorem validBlankId_spec (e : RStr) (hv : validBlankId e = true) :
    ∀ c ∈ e, c < 128 ∧ (c = 10 || c = 13 || c = 32 || c = 46) = false := by
  intro c hc
  simp [validBlankId, InputReaderHelper.node_delimiter] at hv
  have h := hv c hc
  have h2 := h.2
  refine ⟨h.1, ?_⟩
  simp only [Bool.or_eq_false_iff, decide_eq_false_iff_not]
  omega

/-- Unpacking `validUriChars`: every URI byte is ASCII and not `'>'`. -/
theorem validUriChars_spec (u : RStr) (hv : validUriChars u = true) :
    ∀ c ∈ u, c < 128 ∧ decide (c = 62) = false := by
  intro c hc
  simp [validUriChars] at hv
  have h := hv c hc
  exact ⟨h.1, by simp [h.2]⟩

namespace Lex

/-- `get_blank_node` on a pushed-back `'_'`, a `':'`, a valid label and a space
delimiter. -/
theorem get_blank_node_run (e : RStr) (rest : List Nat) (hv : validBlankId e = true) :
    get_blank_node ⟨58 :: (e ++ 32 :: rest), [some 95]⟩ =
      (.ok (.BlankNode e), ⟨rest, [some 32]⟩) := by
  have hu := InputReader.get_until_run (fun c => c = 10 || c = 13 || c = 32 || c = 46)
    e 32 rest (validBlankId_spec e hv) (by decide) (by omega)
  simp [get_blank_node, consume_next_char, InputReader.get_next_char_bufd,
    InputReader.get_next_char_ascii 58 _ (by omega), hu, InputReader.toStr_map_some]

/-- `get_uri` on a pushed-back `'<'`, a valid URI body and the closing `'>'`. -/
theorem get_uri_run (u : RStr) (rest : List Nat) (hv : validUriChars u = true) :
    get_uri ⟨u ++ 62 :: rest, [some 60]⟩ = (.ok (.Uri u), ⟨rest, []⟩) := by
  have hq := InputReader.get_until_run (fun c => c = 62) u 62 rest
    (validUriChars_spec u hv) (by decide) (by omega)
  simp [get_uri, consume_next_char, InputReader.get_next_char_bufd, hq,
    InputReader.toStr_map_some]

end Lex

namespace TurtleLexer

/-- Dispatching `'_'` lexes a blank-node label. -/
theorem dispatch_blank (e : RStr) (rest : List Nat) (hv : validBlankId e = true) :
    dispatch (some 95) ⟨58 :: (e ++ 32 :: rest), [some 95]⟩ =
      (.ok (.BlankNode e), ⟨rest, [some 32]⟩) := by
  simp [dispatch, Lex.get_blank_node_run e rest hv]

/-- Dispatching `'<'` lexes a URI. -/
theorem dispatch_uri (u : RStr) (rest : List Nat) (hv : validUriChars u = true) :
    dispatch (some 60) ⟨u ++ 62 :: rest, [some 60]⟩ = (.ok (.Uri u), ⟨rest, []⟩) := by
  simp [dispatch, Lex.get_uri_run u rest hv]

/-- Dispatching `'('`. -/
theorem dispatch_coll_start (I : List Nat) :
    dispatch (some 40) ⟨I, [some 40]⟩ = (.ok .CollectionStart, ⟨I, []⟩) := rfl

/-- Dispatching `')'`. -/
theorem dispatch_coll_end (I : List Nat) :
    dispatch (some 41) ⟨I, [some 41]⟩ = (.ok .CollectionEnd, ⟨I, []⟩) := rfl

/-- Serving a cached token. -/
theorem get_token_cached (r : InputReader) (t : Token) :
    get_next_token ⟨r, some t⟩ = (.ok t, ⟨r, none⟩) := rfl

/-- Peeking a cached token. -/
theorem peek_token_cached (r : InputReader) (t : Token) :
    peek_next_token ⟨r, some t⟩ = (.ok t, ⟨r, some t⟩) := rfl

/-- `peek_next_token` from a successful uncached `get_next_token`. -/
theorem peek_token_of_get (lx : TurtleLexer) (t : Token) (r : InputReader)
    (hn : lx.peeked_token = none)
    (h : get_next_token lx = (.ok t, ⟨r, none⟩)) :
    peek_next_token lx = (.ok t, ⟨r, some t⟩) := by
  simp [peek_next_token, hn, h]

/-- Lexing a blank-node label at the head of the stream. -/
theorem get_token_blank_top (e : RStr) (rest : List Nat) (hv : validBlankId e = true) :
    get_next_token ⟨⟨95 :: 58 :: (e ++ 32 :: rest), []⟩, none⟩ =
      (.ok (.BlankNode e), ⟨⟨rest, [some 32]⟩, none⟩) := by
  simp [get_next_token, InputReader.peek_dls_top 95 _ (by omega) (by omega),
    dispatch_blank e rest hv]

/-- Lexing a blank-node label after a buffered space. -/
theorem get_token_blank_bufd (e : RStr) (rest : List Nat) (hv : validBlankId e = true) :
    get_next_token ⟨⟨95 :: 58 :: (e ++ 32 :: rest), [some 32]⟩, none⟩ =
      (.ok (.BlankNode e), ⟨⟨rest, [some 32]⟩, none⟩) := by
  simp [get_next_token, InputReader.peek_dls_bufd 95 _ (by omega) (by omega),
    dispatch_blank e rest hv]

/-- Lexing a blank-node label after a leading space of the stream. -/
theorem get_token_blank_sp (e : RStr) (rest : List Nat) (hv : validBlankId e = true) :
    get_next_token ⟨⟨32 :: 95 :: 58 :: (e ++ 32 :: rest), []⟩, none⟩ =
      (.ok (.BlankNode e), ⟨⟨rest, [some 32]⟩, none⟩) := by
  simp [get_next_token, InputReader.peek_dls_sp 95 _ (by omega) (by omega),
    dispatch_blank e rest hv]

/-- Lexing a URI after a buffered space. -/
theorem get_token_uri_bufd (u : RStr) (rest : List Nat) (hv : validUriChars u = true) :
    get_next_token ⟨⟨60 :: (u ++ 62 :: rest), [some 32]⟩, none⟩ =
      (.ok (.Uri u), ⟨⟨rest, []⟩, none⟩) := by
  simp [get_next_token, InputReader.peek_dls_bufd 60 _ (by omega) (by omega),
    dispatch_uri u rest hv]

/-- Lexing `'('` after a buffered space. -/
theorem get_token_coll_start_bufd (I : List Nat) :
    get_next_token ⟨⟨40 :: I, [some 32]⟩, none⟩ =
      (.ok .CollectionStart, ⟨⟨I, []⟩, none⟩) := by
  simp [get_next_token, InputReader.peek_dls_bufd 40 I (by omega) (by omega),
    dispatch_coll_start]

/-- Lexing `')'` after a buffered space. -/
theorem get_token_coll_end_bufd (I : List Nat) :
    get_next_token ⟨⟨41 :: I, [some 32]⟩, none⟩ =
      (.ok .CollectionEnd, ⟨⟨I, []⟩, none⟩) := by
  simp [get_next_token, InputReader.peek_dls_bufd 41 I (by omega) (by omega),
    dispatch_coll_end]

/-- Lexing `')'` after a leading space of the stream. -/
theorem get_token_coll_end_sp (I : List Nat) :
    get_next_token ⟨⟨32 :: 41 :: I, []⟩, none⟩ =
      (.ok .CollectionEnd, ⟨⟨I, []⟩, none⟩) := by
  simp [get_next_token, InputReader.peek_dls_sp 41 I (by omega) (by omega),
    dispatch_coll_end]

/-- Lexing the statement-final `" ."`: the numeric fallback fails and the dot
becomes a `TripleDelimiter`. -/
theorem get_token_dot_bufd :
    get_next_token ⟨⟨[46], [some 32]⟩, none⟩ = (.ok .TripleDelimiter, ⟨⟨[], []⟩, none⟩) := rfl

/-- Lexing the statement-final `" ."` from the stream. -/
theorem get_token_dot_sp :
    get_next_token ⟨⟨[32, 46], []⟩, none⟩ = (.ok .TripleDelimiter, ⟨⟨[], []⟩, none⟩) := rfl

/-- Lexing the end of the stream. -/
theorem get_token_eoi :
    get_next_token ⟨⟨[], []⟩, none⟩ = (.ok .EndOfInput, ⟨⟨[], []⟩, none⟩) := rfl

end TurtleLexer


-- Shape lemmas for the rendered collection input.

/-- `collEntryInput` on the empty element list. -/
theorem collEntryInput_nil (tail : List Nat) : collEntryInput [] tail = 41 :: tail := by
  simp [collEntryInput]

/-- `collEntryInput` on a nonempty element list. -/
theorem collEntryInput_cons (e : RStr) (es : List RStr) (tail : List Nat) :
    collEntryInput (e :: es) tail = 95 :: 58 :: (e ++ 32 :: collEntryInput es tail) := by
  simp [collEntryInput]

/-- Shifting the per-element leading space across the element list. -/
theorem flatMap_sp_shift (els : List RStr) (tail : List Nat) :
    els.flatMap (fun id => [32, 95, 58] ++ id) ++ 32 :: 41 :: tail =
      32 :: collEntryInput els tail := by
  induction els with
  | nil => simp [collEntryInput]
  | cons e es ih => simp [collEntryInput_cons, ← ih]

/-- The rendered collection statement in head-normal byte form. -/
theorem collRender_eq (els : List RStr) :
    collRender els =
      95 :: 58 :: 97 :: 32 :: 95 :: 58 :: 98 :: 32 :: 40 :: 32 ::
        collEntryInput els [32, 46] := by
  have ha : ascii "_:a _:b (" = [95, 58, 97, 32, 95, 58, 98, 32, 40] := rfl
  have hb : ascii " ) ." = 32 :: 41 :: [32, 46] := rfl
  have h := flatMap_sp_shift els [32, 46]
  simp [collRender, ha, hb, ← h]

-- Evaluation lemmas for the parser engine `tstep` on collection statements.

namespace TurtleParser

/-- `read_subject` on a cached blank-node token. -/
theorem tstep_subject_cached (fuel : Nat) (g : Graph) (r : InputReader) (e : RStr) :
    tstep (fuel + 1) .subject g ⟨r, some (.BlankNode e)⟩ =
      .ok (.node (.BlankNode e), g, ⟨r, none⟩) := rfl

/-- `read_object` on a cached blank-node token. -/
theorem tstep_object_cached (fuel : Nat) (g : Graph) (r : InputReader) (e : RStr) :
    tstep (fuel + 1) .object g ⟨r, some (.BlankNode e)⟩ =
      .ok (.node (.BlankNode e), g, ⟨r, none⟩) := rfl

/-- The loop of `read_collection`, run over the remaining rendered elements:
it consumes them and the closing `')'`, appends the desugaring triples of the
current element `e` followed by `es`, and mints one blank node per turn. -/
theorem tstep_collectionLoop (es : List RStr) :
    ∀ (fuel : Nat) (e : RStr) (tail : List Nat) (g : Graph) (subj next : Node),
      es.length + 2 ≤ fuel →
      (∀ x ∈ es, validBlankId x = true) →
      tstep fuel (.collectionLoop subj next) g
          ⟨⟨collEntryInput es tail, [some 32]⟩, some (.BlankNode e)⟩ =
        .ok (.node subj,
          ⟨g.base_uri, ⟨g.triples.triples ++ specCollTriples next g.next_id (e :: es)⟩,
            g.namespaces, g.next_id + es.length + 1⟩,
          ⟨⟨tail, []⟩, none⟩) := by
  induction es with
  | nil =>
    intro fuel e tail g subj next hf _
    obtain ⟨f, rfl⟩ : ∃ f, fuel = f + 2 := ⟨fuel - 2, by omega⟩
    have hpk := TurtleLexer.peek_token_of_get
      ⟨⟨collEntryInput [] tail, [some 32]⟩, none⟩ .CollectionEnd ⟨tail, []⟩ rfl
      (by rw [collEntryInput_nil]; exact TurtleLexer.get_token_coll_end_bufd tail)
    rw [show f + 2 = (f + 1) + 1 from rfl, tstep]
    simp only [Graph.create_blank_node]
    rw [tstep_object_cached]
    simp only []
    rw [hpk]
    simp [TurtleLexer.get_token_cached, Graph.add_triple, TripleStore.add_triple,
      specCollTriples, listFirstNode, listRestNode, listNilNode]
  | cons e2 es2 ih =>
    intro fuel e tail g subj next hf hv
    obtain ⟨f, rfl⟩ : ∃ f, fuel = f + 2 := ⟨fuel - 2, by omega⟩
    have hpk := TurtleLexer.peek_token_of_get
      ⟨⟨collEntryInput (e2 :: es2) tail, [some 32]⟩, none⟩ (.BlankNode e2)
      ⟨collEntryInput es2 tail, [some 32]⟩ rfl
      (by rw [collEntryInput_cons]
          exact TurtleLexer.get_token_blank_bufd e2 _ (hv e2 (List.mem_cons_self e2 es2)))
    rw [show f + 2 = (f + 1) + 1 from rfl, tstep]
    simp only [Graph.create_blank_node]
    rw [tstep_object_cached]
    simp only []
    rw [hpk]
    simp only []
    rw [if_neg (by simp : ¬(Token.BlankNode e2 = Token.CollectionEnd))]
    rw [ih (f + 1) e2 tail _ subj _
      (by simp only [List.length_cons] at hf ⊢; omega)
      (fun x hx => hv x (List.mem_cons_of_mem e2 hx))]
    simp [Graph.add_triple, TripleStore.add_triple, specCollTriples, autoNode,
      listFirstNode, listRestNode, listNilNode]
    omega

end TurtleParser


namespace TurtleParser

/-- `read_collection` on an empty rendered collection: consume the `')'` and
return `rdf:nil` without touching the graph. -/
theorem tstep_collection_nil (f : Nat) (tail : List Nat) (g : Graph) :
    tstep (f + 1) .collection g ⟨⟨32 :: collEntryInput [] tail, []⟩, none⟩ =
      .ok (.node (.UriNode RdfSyntaxDataTypes.ListNil.to_uri), g, ⟨⟨tail, []⟩, none⟩) := by
  have hpk := TurtleLexer.peek_token_of_get
    ⟨⟨32 :: collEntryInput [] tail, []⟩, none⟩ .CollectionEnd ⟨tail, []⟩ rfl
    (by rw [collEntryInput_nil]; exact TurtleLexer.get_token_coll_end_sp tail)
  rw [tstep]
  rw [hpk]
  simp [TurtleLexer.get_token_cached]

/-- `read_collection` on a nonempty rendered collection: mint the head blank
node, run the loop, and return the head node with the desugaring triples
appended and the counter advanced once per element plus once for the head. -/
theorem tstep_collection_cons (e : RStr) (es : List RStr) (f : Nat) (tail : List Nat)
    (g : Graph) (hf : es.length + 2 ≤ f) (hv : ∀ x ∈ e :: es, validBlankId x = true) :
    tstep (f + 1) .collection g ⟨⟨32 :: collEntryInput (e :: es) tail, []⟩, none⟩ =
      .ok (.node (.BlankNode (ascii "auto" ++ natDec g.next_id)),
        ⟨g.base_uri,
         ⟨g.triples.triples ++
           specCollTriples (.BlankNode (ascii "auto" ++ natDec g.next_id)) (g.next_id + 1)
             (e :: es)⟩,
         g.namespaces, g.next_id + es.length + 2⟩,
        ⟨⟨tail, []⟩, none⟩) := by
  have hpk := TurtleLexer.peek_token_of_get
    ⟨⟨32 :: collEntryInput (e :: es) tail, []⟩, none⟩ (.BlankNode e)
    ⟨collEntryInput es tail, [some 32]⟩ rfl
    (by rw [collEntryInput_cons]
        exact TurtleLexer.get_token_blank_sp e _ (hv e (List.mem_cons_self e es)))
  rw [tstep]
  rw [hpk]
  try simp only []
  rw [if_neg (by simp : ¬(Token.BlankNode e = Token.CollectionEnd))]
  simp only [Graph.create_blank_node]
  rw [tstep_collectionLoop es f e tail _ _ _ hf (fun x hx => hv x (List.mem_cons_of_mem e hx))]
  simp
  omega

/-- `decodeLoop` at the exhausted reader: the `EndOfInput` token ends parsing
successfully. -/
theorem decodeLoop_eoi (f : Nat) (g : Graph) :
    decodeLoop (f + 1) g ⟨⟨[], []⟩, none⟩ = .ok g := rfl

/-- Full run of the decoding loop on a rendered collection statement. -/
theorem decodeLoop_coll (els : List RStr) (fuel : Nat) (hf : els.length + 8 ≤ fuel)
    (hv : ∀ e ∈ els, validBlankId e = true) :
    decodeLoop fuel (Graph.new none) (TurtleLexer.new (collRender els)) =
      .ok (collGraphSpec els) := by
  obtain ⟨k, rfl⟩ : ∃ k, fuel = k + els.length + 8 := ⟨fuel - els.length - 8, by omega⟩
  have h1 := TurtleLexer.get_token_blank_top [97]
    (95 :: 58 :: 98 :: 32 :: 40 :: 32 :: collEntryInput els [32, 46]) (by decide)
  simp only [List.cons_append, List.nil_append] at h1
  have hpk1 := TurtleLexer.peek_token_of_get _ _ _ rfl h1
  have h2 := TurtleLexer.get_token_blank_bufd [98]
    (40 :: 32 :: collEntryInput els [32, 46]) (by decide)
  simp only [List.cons_append, List.nil_append] at h2
  simp only [TurtleLexer.new]
  rw [collRender_eq]
  rw [show k + els.length + 8 = k + els.length + 7 + 1 from rfl]
  rw [decodeLoop]
  rw [hpk1]
  try simp only []
  simp only [read_triples]
  rw [show k + els.length + 7 = k + els.length + 6 + 1 from rfl]
  rw [tstep_subject_cached]
  try simp only []
  rw [tstep]
  rw [show k + els.length + 6 = k + els.length + 5 + 1 from rfl]
  rw [tstep]
  try simp only []
  rw [h2]
  try simp only []
  rw [show k + els.length + 5 = k + els.length + 4 + 1 from rfl]
  rw [tstep]
  try simp only []
  rw [TurtleLexer.get_token_coll_start_bufd]
  try simp only []
  cases els with
  | nil =>
    simp only [List.length_nil]
    rw [show k + 0 + 4 = k + 0 + 3 + 1 from rfl]
    rw [tstep_collection_nil]
    try simp only []
    rw [tstep]
    rw [TurtleLexer.get_token_dot_sp]
    try simp only []
    rw [decodeLoop_eoi]
    simp [Graph.add_triples, Graph.add_triple, TripleStore.add_triple, Graph.new,
      TripleStore.new, NamespaceStore.new, collGraphSpec, listNilNode]
  | cons e es =>
    simp only [List.length_cons]
    have hc := tstep_collection_cons e es (k + (es.length + 1) + 3) [32, 46] (Graph.new none)
      (by omega) hv
    rw [show k + (es.length + 1) + 4 = k + (es.length + 1) + 3 + 1 from rfl]
    rw [hc]
    try simp only []
    rw [tstep]
    rw [TurtleLexer.get_token_dot_sp]
    try simp only []
    rw [decodeLoop_eoi]
    simp [Graph.add_triples, Graph.add_triple, TripleStore.add_triple, Graph.new,
      TripleStore.new, NamespaceStore.new, collGraphSpec, autoNode]

end TurtleParser


/-- Each rendered element contributes at least one byte. -/
theorem flatMap_len_ge (els : List RStr) :
    els.length ≤ (els.flatMap (fun id => [32, 95, 58] ++ id)).length := by
  induction els with
  | nil => simp
  | cons e es ih => simp at ih ⊢; omega

/-- `TurtleParser::decode` on a rendered collection statement produces exactly
the expected desugaring graph. -/
theorem coll_decode_eq (els : List RStr) (hv : ∀ e ∈ els, validBlankId e = true) :
    TurtleParser.decode (collRender els) = .ok (collGraphSpec els) := by
  have hlen : els.length ≤ (collRender els).length := by
    have h := flatMap_len_ge els
    simp only [collRender, List.length_append]
    omega
  simp only [TurtleParser.decode]
  exact TurtleParser.decodeLoop_coll els _ (by omega) hv

-- Injectivity of the decimal rendering of the blank-node counter.

/-- Folding the decimal digits of `natDecAux` back recovers the value. -/
theorem natDecAux_foldl (fuel : Nat) :
    ∀ n a, n < fuel →
      ∃ M, 0 < M ∧
        List.foldl (fun acc d => acc * 10 + (d - 48)) a (natDecAux fuel n) = a * M + n := by
  induction fuel with
  | zero => intro n a h; omega
  | succ f ih =>
    intro n a h
    by_cases h10 : n < 10
    · refine ⟨10, by omega, ?_⟩
      simp [natDecAux, h10]
    · obtain ⟨M, hM, heq⟩ := ih (n / 10) a (by omega)
      refine ⟨M * 10, by positivity, ?_⟩
      have heqn : natDecAux (f + 1) n = natDecAux f (n / 10) ++ [48 + n % 10] := by
        rw [natDecAux, if_neg h10]
      rw [heqn, List.foldl_append, heq]
      simp only [List.foldl_cons, List.foldl_nil, Nat.add_sub_cancel_left]
      have h2 := Nat.div_add_mod n 10
      ring_nf
      omega

/-- `decVal` inverts `natDec`. -/
theorem decVal_natDec (n : Nat) : decVal (natDec n) = n := by
  obtain ⟨M, hM, h⟩ := natDecAux_foldl (n + 1) n 0 (by omega)
  simpa [decVal, natDec] using h

/-- `natDec` is injective. -/
theorem natDec_inj {m n : Nat} (h : natDec m = natDec n) : m = n := by
  have hm := decVal_natDec m
  rw [h, decVal_natDec] at hm
  omega

/-- `autoNode` is injective. -/
theorem autoNode_inj {m n : Nat} (h : autoNode m = autoNode n) : m = n := by
  simp only [autoNode, Node.BlankNode.injEq] at h
  exact natDec_inj (List.append_cancel_left h)

/-- A one-byte label is never an auto-minted label. -/
theorem single_ne_auto (c : Nat) (m : Nat) : Node.BlankNode [c] ≠ autoNode m := by
  intro h
  simp only [autoNode, Node.BlankNode.injEq] at h
  have hl := congrArg List.length h
  simp [ascii, natDec] at hl

/-- No triple of the spec desugaring mentions an auto node at or beyond the
index bound. -/
theorem specColl_no_late_auto (es : List RStr) :
    ∀ (subj : Node) (k m : Nat), subj ≠ autoNode m → k + es.length ≤ m + 1 →
      (∀ e ∈ es, Node.BlankNode e ≠ autoNode m) →
      ∀ t ∈ specCollTriples subj k es,
        t.subject ≠ autoNode m ∧ t.predicate ≠ autoNode m ∧ t.object ≠ autoNode m := by
  induction es with
  | nil => intro subj k m _ _ _ t ht; simp [specCollTriples] at ht
  | cons e es ih =>
    intro subj k m hsub hk he t ht
    cases es with
    | nil =>
      simp only [specCollTriples, List.mem_cons, List.not_mem_nil, or_false] at ht
      rcases ht with rfl | rfl
      · exact ⟨hsub, by simp [listFirstNode, autoNode], he e (by simp)⟩
      · exact ⟨hsub, by simp [listRestNode, autoNode], by simp [listNilNode, autoNode]⟩
    | cons e2 es2 =>
      simp only [specCollTriples, List.mem_cons] at ht
      rcases ht with rfl | rfl | hmem
      · exact ⟨hsub, by simp [listFirstNode, autoNode], he e (by simp)⟩
      · refine ⟨hsub, by simp [listRestNode, autoNode], ?_⟩
        intro hEq
        have hkm := autoNode_inj hEq
        simp at hk
        omega
      · refine ih (autoNode k) (k + 1) m ?_ ?_ ?_ t hmem
        · intro hEq
          have hkm := autoNode_inj hEq
          simp at hk
          omega
        · simp at hk ⊢
          omega
        · exact fun x hx => he x (by simp [hx])


namespace TurtleWriter

/-- Serializing the single-triple graph `_:s <u> _:o .` (no base URI, no
namespaces). -/
theorem write_single (s u o : RStr) :
    write_to_string ⟨[]⟩ (singleTripleGraph s u o) =
      .ok (95 :: 58 :: (s ++ 32 :: 60 :: (u ++ 62 :: 32 :: 95 :: 58 :: (o ++ [32, 46])))) := by
  simp [write_to_string, write_base_uri, write_pfx_lines, singleTripleGraph,
    Graph.is_empty, TripleStore.is_empty, TripleStore.count, List.insertionSort,
    writeLoop, node_to_turtle, TurtleFormatter.format_node, TurtleFormatter.format_blank,
    TurtleFormatter.format_uri, ascii]

end TurtleWriter

namespace TurtleParser

/-- Full run of the decoding loop on the serialized single-triple statement. -/
theorem decodeLoop_single (s u o : RStr) (fuel : Nat) (hs : validBlankId s = true)
    (hu : validUriChars u = true) (ho : validBlankId o = true) (hf : 8 ≤ fuel) :
    decodeLoop fuel (Graph.new none)
        ⟨⟨95 :: 58 :: (s ++ 32 :: 60 :: (u ++ 62 :: 32 :: 95 :: 58 :: (o ++ [32, 46]))), []⟩,
          none⟩ =
      .ok (singleTripleGraph s u o) := by
  obtain ⟨k, rfl⟩ : ∃ k, fuel = k + 8 := ⟨fuel - 8, by omega⟩
  have h1 := TurtleLexer.get_token_blank_top s
    (60 :: (u ++ 62 :: 32 :: 95 :: 58 :: (o ++ [32, 46]))) hs
  have hpk1 := TurtleLexer.peek_token_of_get _ _ _ rfl h1
  have h2 := TurtleLexer.get_token_uri_bufd u (32 :: 95 :: 58 :: (o ++ [32, 46])) hu
  have h3 := TurtleLexer.get_token_blank_sp o [46] ho
  rw [show k + 8 = k + 7 + 1 from rfl]
  rw [decodeLoop]
  rw [hpk1]
  try simp only []
  simp only [read_triples]
  rw [show k + 7 = k + 6 + 1 from rfl]
  rw [tstep_subject_cached]
  try simp only []
  rw [tstep]
  try simp only []
  rw [show k + 6 = k + 5 + 1 from rfl]
  rw [tstep]
  try simp only []
  rw [h2]
  try simp only []
  rw [show k + 5 = k + 4 + 1 from rfl]
  rw [tstep]
  try simp only []
  rw [h3]
  try simp only []
  rw [show k + 4 = k + 3 + 1 from rfl]
  rw [tstep]
  rw [TurtleLexer.get_token_dot_bufd]
  try simp only []
  rw [decodeLoop_eoi]
  simp [Graph.add_triples, Graph.add_triple, TripleStore.add_triple, Graph.new,
    TripleStore.new, NamespaceStore.new, singleTripleGraph]

/-- `TurtleParser::decode` on the serialized single-triple statement. -/
theorem decode_single (s u o : RStr) (hs : validBlankId s = true)
    (hu : validUriChars u = true) (ho : validBlankId o = true) :
    decode (95 :: 58 :: (s ++ 32 :: 60 :: (u ++ 62 :: 32 :: 95 :: 58 :: (o ++ [32, 46])))) =
      .ok (singleTripleGraph s u o) := by
  simp only [decode]
  exact decodeLoop_single s u o _ hs hu ho (by simp)

end TurtleParser


/-- C2: Turtle collection desugaring: decoding the rendered statement
`_:a _:b ( …els… ) .` (blank-node elements with delimiter-free ASCII labels)
yields exactly the graph described by `collGraphSpec`: an empty collection
contributes the fixed node `rdf:nil` and no list triples, and a nonempty
collection contributes, per element in order, an `rdf:first` triple from that
element's fresh blank node to the element and an `rdf:rest` triple to the next
element's blank node (`rdf:nil` for the last), the statement triple pointing
at the first blank node; in particular `_:a _:b ( _:c _:d ) .` decodes to
exactly 5 triples. -/
theorem C2_collection_desugaring :
    (∀ els : List RStr, (∀ e ∈ els, validBlankId e = true) →
        TurtleParser.decode (collRender els) = .ok (collGraphSpec els)) ∧
    TurtleParser.decode (collRender []) =
      .ok ⟨none, ⟨[⟨.BlankNode [97], .BlankNode [98], listNilNode⟩]⟩, ⟨[]⟩, 0⟩ ∧
    ∃ g, TurtleParser.decode (ascii "_:a _:b ( _:c _:d ) .") = .ok g ∧ g.count = 5 := by
  refine ⟨fun els hv => coll_decode_eq els hv, coll_decode_eq [] (by simp),
    ⟨collGraphSpec [[99], [100]], ?_, ?_⟩⟩
  · rfl
  · rfl

/-- Witness for C2 at the two-element collection `_:a _:b ( _:c _:d ) .`. -/
theorem C2_witness :
    TurtleParser.decode (collRender [[99], [100]]) = .ok (collGraphSpec [[99], [100]]) :=
  C2_collection_desugaring.1 [[99], [100]] (by decide)

/-- C9: parsing a nonempty rendered collection of `n` elements advances the
graph's blank-node counter to `n + 1` — one fresh node per element plus one
extra minted just before the closing `')'` is detected — and the extra node
`_:auto{n}` occurs in no triple of the resulting graph, so auto ids minted
after the collection are not contiguous with those used inside it. -/
theorem C9_collection_counter (els : List RStr) (hne : els ≠ [])
    (hv : ∀ e ∈ els, validBlankId e = true)
    (hfree : ∀ e ∈ els, e ≠ ascii "auto" ++ natDec els.length) :
    ∃ g, TurtleParser.decode (collRender els) = .ok g ∧
      g.next_id = els.length + 1 ∧
      ∀ t ∈ g.triples.triples,
        t.subject ≠ autoNode els.length ∧ t.predicate ≠ autoNode els.length ∧
          t.object ≠ autoNode els.length := by
  obtain ⟨e, es, rfl⟩ : ∃ e es, els = e :: es := by
    cases els with
    | nil => exact absurd rfl hne
    | cons e es => exact ⟨e, es, rfl⟩
  refine ⟨collGraphSpec (e :: es), coll_decode_eq _ hv, by simp [collGraphSpec], ?_⟩
  intro t ht
  simp only [collGraphSpec, List.mem_append, List.mem_cons, List.not_mem_nil, or_false] at ht
  rcases ht with hspec | rfl
  · refine specColl_no_late_auto (e :: es) (autoNode 0) 1 (e :: es).length ?_ ?_ ?_ t hspec
    · intro hEq
      have h0 := autoNode_inj hEq
      simp at h0
    · simp
      omega
    · intro x hx hEq
      apply hfree x hx
      simpa [autoNode] using hEq
  · refine ⟨single_ne_auto 97 _, single_ne_auto 98 _, ?_⟩
    intro hEq
    have h0 := autoNode_inj hEq
    simp at h0

/-- Witness for C9 at the two-element collection `_:a _:b ( _:c _:d ) .`. -/
theorem C9_witness :
    ∃ g, TurtleParser.decode (collRender [[99], [100]]) = .ok g ∧
      g.next_id = ([[99], [100]] : List RStr).length + 1 ∧
      ∀ t ∈ g.triples.triples,
        t.subject ≠ autoNode ([[99], [100]] : List RStr).length ∧
        t.predicate ≠ autoNode ([[99], [100]] : List RStr).length ∧
        t.object ≠ autoNode ([[99], [100]] : List RStr).length :=
  C9_collection_counter [[99], [100]] (by decide) (by decide) (by decide)

/-- C3 is refuted as stated: serializing does not succeed for every graph — a
graph whose only triple has a literal predicate makes
`TurtleWriter::write_to_string` fail with `InvalidWriterOutput`, so no
round trip exists for it. -/
theorem C3_counterexample :
    TurtleWriter.write_to_string ⟨[]⟩
        ⟨none, ⟨[⟨.BlankNode [97], .LiteralNode [98] none none, .BlankNode [99]⟩]⟩, ⟨[]⟩, 0⟩ =
      .error ⟨.InvalidWriterOutput,
        "Literals are not allowed as subjects or predicates in Turtle."⟩ := rfl

/-- C3 (amended): for every single-triple graph with a blank subject, a URI
predicate and a blank object (labels free of node delimiters, URI free of
`'>'`, all ASCII), serializing with `TurtleWriter::write_to_string` and
re-parsing the output with `TurtleParser::decode` succeeds and returns exactly
the original graph — same triple count and same (S,P,O) set under the
identity blank-node relabeling. -/
theorem C3_single_round_trip (s u o : RStr) (hs : validBlankId s = true)
    (hu : validUriChars u = true) (ho : validBlankId o = true) :
    ∃ out, TurtleWriter.write_to_string ⟨[]⟩ (singleTripleGraph s u o) = .ok out ∧
      TurtleParser.decode out = .ok (singleTripleGraph s u o) :=
  ⟨_, TurtleWriter.write_single s u o, TurtleParser.decode_single s u o hs hu ho⟩

/-- Witness for C3 (amended) at `_:s <u> _:o .`. -/
theorem C3_witness :
    ∃ out,
      TurtleWriter.write_to_string ⟨[]⟩ (singleTripleGraph [115] [117] [111]) = .ok out ∧
      TurtleParser.decode out = .ok (singleTripleGraph [115] [117] [111]) :=
  C3_single_round_trip [115] [117] [111] (by decide) (by decide) (by decide)

end RdfRs
